import Mathlib

/-!
Verification development for the pyOPI streaming OPI substitution engine
(`opi.py`).  The Python source is shallowly embedded: Python ints are `ℤ`
(or `ℕ` for counters), Python floats are `ℚ` (the source only performs
field operations, `math.floor`, `math.ceil` and `round` on them), Python
lists/dicts are Lean lists, and fallible external calls (PIL, ImageCms)
are driven by explicit outcome parameters.  Items are named after the
source attributes and methods they embed (leading underscores dropped).
-/

namespace Opi

/-- Python 2 `round`: round half away from zero (`round(0.5) = 1.0`,
`round(-0.5) = -1.0`); the source always wraps it in `int(...)`. -/
def pyRound (q : ℚ) : ℤ :=
  if 0 ≤ q then ⌊q + 1/2⌋ else -⌊-q + 1/2⌋

/-- Python `math.ceil` (written via the floor so that `norm_num` can
evaluate it on rational literals). -/
def pyCeil (q : ℚ) : ℤ := -⌊-q⌋

theorem pyCeil_eq_ceil (q : ℚ) : pyCeil q = ⌈q⌉ := by
  rw [pyCeil, Int.floor_neg, neg_neg]

/-- Python 2 integer division `/` on ints (floor division). -/
def pyIntDiv (a b : ℤ) : ℤ := Int.fdiv a b

/-! ## PIL image values as they matter to the cache

`OPIparser._setimage` computes a memory footprint from `image.mode` and
`image.size`; `EPSImage` instances have `mode = None` and are measured by
`len(image.data)`. -/

/-- PIL mode strings occurring in the program. -/
inductive PMode
  | one | L | LA | RGB | RGBA | CMYK | CMYKA
deriving DecidableEq

/-- `len(mode)`: the number of channels of a PIL mode string. -/
def PMode.channels : PMode → ℤ
  | .one => 1
  | .L => 1
  | .LA => 2
  | .RGB => 3
  | .RGBA => 4
  | .CMYK => 4
  | .CMYKA => 5

/-- An image as the cache sees it.  `mode = none` models `EPSImage`
(whose `mode` attribute is `None`); `dataLen` is `len(image.data)` for
such images and is ignored for raster images. -/
structure CImage where
  mode : Option PMode
  w : ℤ
  h : ℤ
  dataLen : ℤ
deriving DecidableEq

/-- Memory footprint computed at the top of `_setimage` (opi.py:1911-1919):
1 bpp for mode `"1"`, 8 bpp per channel otherwise; `len(image.data)` for
EPS images. -/
def imageBytes (image : CImage) : ℤ :=
  match image.mode with
  | some m => pyIntDiv (image.w * image.h * m.channels * (if m = PMode.one then 1 else 8)) 8
  | none => image.dataLen

/-! ## The memory image cache (`_imagecache`, `_cachebytes`,
`_max_occurrences`) -/

/-- One value of the `_imagecache` dict (opi.py:1926-1929). -/
structure CEntry where
  image : CImage
  bytes : ℤ
  occurrences : ℕ
  path : String
deriving DecidableEq

/-- The cache-related state of `OPIparser`.  The dict `_imagecache`
(MD5 hex key → entry) is modelled as an association list whose order
models the dict's (unspecified) iteration order; new keys are appended. -/
structure CacheState where
  cache : List (String × CEntry)
  cachebytes : ℤ
  maxOccurrences : List ℕ
deriving DecidableEq

/-- The configuration the cache operations read. -/
structure CacheConfig where
  usecache : Bool
  cachemegs : ℚ
deriving DecidableEq

/-- The byte budget `self.cachemegs * 1024 * 1024`. -/
def budget (cfg : CacheConfig) : ℚ := cfg.cachemegs * 1024 * 1024

/-- Dict lookup `self._imagecache[k]` (first entry with the given key). -/
def lookupEntry (st : CacheState) (k : String) : Option CEntry :=
  (st.cache.find? (fun p => p.1 = k)).map (fun p => p.2)

/-- Dict deletion `del self._imagecache[k]` (removes the first entry with
the given key). -/
def eraseKey (k : String) : List (String × CEntry) → List (String × CEntry)
  | [] => []
  | (k₁, e) :: rest => if k₁ = k then rest else (k₁, e) :: eraseKey k rest

/-- In-place update `self._imagecache[k]["…"] = …` of the first entry with
the given key. -/
def updateEntry (k : String) (e₁ : CEntry) : List (String × CEntry) → List (String × CEntry)
  | [] => []
  | (k₁, e) :: rest => if k₁ = k then (k₁, e₁) :: rest else (k₁, e) :: updateEntry k e₁ rest

/-- `_delimage` (opi.py:1935-1940): drop the entry and its bytes. -/
def delimage (st : CacheState) (key : String) : CacheState :=
  match lookupEntry st key with
  | some e =>
    { st with cachebytes := st.cachebytes - e.bytes, cache := eraseKey key st.cache }
  | none => st

/-- `_inc_occurrences` (opi.py:1862-1867).  The Python code indexes the
dict directly (every call site has just stored the entry); an absent key
is modelled as a no-op. -/
def inc_occurrences (st : CacheState) (key : String) : CacheState :=
  match lookupEntry st key with
  | none => st
  | some e =>
    let occ := e.occurrences + 1
    let st₁ : CacheState := { st with cache := updateEntry key { e with occurrences := occ } st.cache }
    if st₁.maxOccurrences = [] ∨ st₁.maxOccurrences.getLastD 0 < occ then
      { st₁ with maxOccurrences := st₁.maxOccurrences ++ [occ] }
    else st₁

/-- The scan loop of `_purgecache` (opi.py:1889-1900): walk the dict in
iteration order; stop as soon as the budget fits; otherwise evict the
entry when the threshold is 1 or its `occurrences` is below the
threshold, subtracting its bytes from the running `_cachebytes`.  Returns
the evicted entries (the `trash` list holds their keys) and the updated
`_cachebytes`. -/
def purgeScan (cfg : CacheConfig) (bytes : ℤ) (thr : ℕ) :
    List (String × CEntry) → ℤ → List (String × CEntry) × ℤ
  | [], cb => ([], cb)
  | (k, e) :: rest, cb =>
    if ((cb + bytes : ℤ) : ℚ) ≤ budget cfg then ([], cb)
    else if thr = 1 ∨ e.occurrences < thr then
      let r := purgeScan cfg bytes thr rest (cb - e.bytes)
      ((k, e) :: r.1, r.2)
    else purgeScan cfg bytes thr rest cb

/-- The deletion loop of `_purgecache` (opi.py:1901-1906): delete each
trashed key, pop `_max_occurrences` once per deletion, and refresh the
local `occurrences` variable from its new last element. -/
def applyTrash : List (String × CEntry) → CacheState → ℕ → CacheState × ℕ
  | [], st, occ => (st, occ)
  | (k, _) :: rest, st, occ =>
    let mo := if st.maxOccurrences = [] then st.maxOccurrences else st.maxOccurrences.dropLast
    let occ₁ := if mo ≠ [] then mo.getLastD occ else occ
    applyTrash rest { st with cache := eraseKey k st.cache, maxOccurrences := mo } occ₁

theorem applyTrash_cache (t : List (String × CEntry)) (st : CacheState) (occ : ℕ) :
    (applyTrash t st occ).1.cache = t.foldl (fun c p => eraseKey p.1 c) st.cache := by
  induction t generalizing st occ with
  | nil => rfl
  | cons p rest ih => cases p with | mk k e => simp [applyTrash, ih]

theorem applyTrash_cachebytes (t : List (String × CEntry)) (st : CacheState) (occ : ℕ) :
    (applyTrash t st occ).1.cachebytes = st.cachebytes := by
  induction t generalizing st occ with
  | nil => rfl
  | cons p rest ih => cases p with | mk k e => simp [applyTrash, ih]

theorem eraseKey_length_le (k : String) (l : List (String × CEntry)) :
    (eraseKey k l).length ≤ l.length := by
  induction l with
  | nil => simp [eraseKey]
  | cons p rest ih =>
    cases p with | mk k₁ e =>
      by_cases h : k₁ = k
      · simp [eraseKey, h]
      · simp only [eraseKey, if_neg h, List.length_cons]
        omega

theorem foldl_eraseKey_length_le (t : List (String × CEntry)) (l : List (String × CEntry)) :
    (t.foldl (fun c p => eraseKey p.1 c) l).length ≤ l.length := by
  induction t generalizing l with
  | nil => simp
  | cons p rest ih =>
    calc (List.foldl (fun c p => eraseKey p.1 c) (eraseKey p.1 l) rest).length
        ≤ (eraseKey p.1 l).length := ih _
      _ ≤ l.length := eraseKey_length_le _ _

/-- When every scanned entry is evicted (threshold 1), either the scan
broke with the budget fitting, or the whole list was trashed. -/
theorem purgeScan_thr_one (cfg : CacheConfig) (bytes : ℤ) (l : List (String × CEntry)) (cb : ℤ) :
    (((purgeScan cfg bytes 1 l cb).2 + bytes : ℤ) : ℚ) ≤ budget cfg ∨
      (purgeScan cfg bytes 1 l cb).1 = l := by
  induction l generalizing cb with
  | nil =>
    by_cases h : ((cb + bytes : ℤ) : ℚ) ≤ budget cfg
    · exact Or.inl (by simpa [purgeScan] using h)
    · exact Or.inr rfl
  | cons p rest ih =>
    cases p with | mk k e =>
      by_cases h : ((cb + bytes : ℤ) : ℚ) ≤ budget cfg
      · have heq : purgeScan cfg bytes 1 ((k, e) :: rest) cb = ([], cb) := by
          simp only [purgeScan]
          rw [if_pos h]
        rw [heq]
        exact Or.inl h
      · have heq : purgeScan cfg bytes 1 ((k, e) :: rest) cb =
            ((k, e) :: (purgeScan cfg bytes 1 rest (cb - e.bytes)).1,
              (purgeScan cfg bytes 1 rest (cb - e.bytes)).2) := by
          simp only [purgeScan]
          rw [if_neg h, if_pos (Or.inl trivial : True ∨ e.occurrences < 1)]
        rcases ih (cb - e.bytes) with h₁ | h₁
        · rw [heq]
          exact Or.inl h₁
        · rw [heq]
          exact Or.inr (by simp [h₁])

/-- Folding `eraseKey` over a list's own entries, in order, empties it. -/
theorem foldl_eraseKey_self (l : List (String × CEntry)) :
    l.foldl (fun c p => eraseKey p.1 c) l = [] := by
  induction l with
  | nil => rfl
  | cons p rest ih =>
    cases p with | mk k e =>
      have h₂ : eraseKey k ((k, e) :: rest) = rest := by simp [eraseKey]
      calc ((k, e) :: rest).foldl (fun c p => eraseKey p.1 c) ((k, e) :: rest)
          = rest.foldl (fun c p => eraseKey p.1 c) (eraseKey k ((k, e) :: rest)) := rfl
        _ = rest.foldl (fun c p => eraseKey p.1 c) rest := by rw [h₂]
        _ = [] := ih

/-- `_purgecache` (opi.py:1884-1909).  The threshold (the reused local
`occurrences`) starts at the last `_max_occurrences` element only when the
argument is falsy (0); every recursive call therefore restarts with
threshold 1. -/
def purgecache (cfg : CacheConfig) (st : CacheState) (bytes : ℤ) (occurrences : ℕ) :
    CacheState :=
  let thr := if occurrences = 0 ∧ st.maxOccurrences ≠ [] then st.maxOccurrences.getLastD 1 else 1
  let s := purgeScan cfg bytes thr st.cache st.cachebytes
  let ta := applyTrash s.1 { st with cachebytes := s.2 } thr
  if h : ((ta.1.cachebytes + bytes : ℤ) : ℚ) > budget cfg ∧ ta.1.cache ≠ [] then
    purgecache cfg ta.1 bytes (ta.2 + 1)
  else ta.1
termination_by st.cache.length + (if occurrences = 0 then 1 else 0)
decreasing_by
  show ta.1.cache.length + (if ta.2 + 1 = 0 then 1 else 0) <
    st.cache.length + (if occurrences = 0 then 1 else 0)
  rcases h with ⟨hbig, hne⟩
  have hlen : ta.1.cache.length ≤ st.cache.length := by
    have h₁ := applyTrash_cache s.1 { st with cachebytes := s.2 } thr
    calc ta.1.cache.length
        = (s.1.foldl (fun c p => eraseKey p.1 c) st.cache).length := by rw [h₁]
      _ ≤ st.cache.length := foldl_eraseKey_length_le _ _
  by_cases hocc : occurrences = 0
  · have h₁ : (if ta.2 + 1 = 0 then 1 else 0) = 0 := by simp
    have h₂ : (if occurrences = 0 then 1 else 0) = 1 := by simp [hocc]
    omega
  · have hthr : thr = 1 := by simp [thr, hocc]
    have hcb : ta.1.cachebytes = s.2 := applyTrash_cachebytes _ _ _
    rcases purgeScan_thr_one cfg bytes st.cache st.cachebytes with hfit | hall
    · exact absurd (by rw [hcb]; simpa [s, hthr] using hfit) (not_le.mpr hbig)
    · have hempty : ta.1.cache = [] := by
        have h₁ := applyTrash_cache s.1 { st with cachebytes := s.2 } thr
        rw [h₁]
        have : s.1 = st.cache := by simpa [s, hthr] using hall
        rw [this]
        exact foldl_eraseKey_self st.cache
      exact absurd hempty hne

/-- `_checkpurgecache` (opi.py:1869-1882): purge under memory pressure
when caching is on and the image is not the internal placeholder;
otherwise drop the current entry and pop `_max_occurrences`. -/
def checkpurgecache (cfg : CacheConfig) (imageformat : String) (imgpathMd5 : String)
    (st : CacheState) (bytes : ℤ) : CacheState :=
  if cfg.usecache ∧ imageformat ≠ "[internal]" then
    if ((st.cachebytes + bytes : ℤ) : ℚ) > budget cfg then purgecache cfg st bytes 0 else st
  else
    let st₁ := delimage st imgpathMd5
    if st₁.maxOccurrences ≠ [] then { st₁ with maxOccurrences := st₁.maxOccurrences.dropLast }
    else st₁

/-- `_setimage` (opi.py:1911-1930): measure the image, make room, then
store it under the current key (`_imgpath_md5`), updating an existing
entry in place or appending a fresh entry with `occurrences = 0`. -/
def setimage (cfg : CacheConfig) (imageformat : String) (imgpathMd5 imgASCIIpath : String)
    (st : CacheState) (image : CImage) : CacheState :=
  let bytes := imageBytes image
  let st₁ := checkpurgecache cfg imageformat imgpathMd5 st bytes
  match lookupEntry st₁ imgpathMd5 with
  | some e =>
    { st₁ with
      cachebytes := st₁.cachebytes - e.bytes + bytes,
      cache := updateEntry imgpathMd5 { e with image := image, bytes := bytes } st₁.cache }
  | none =>
    { st₁ with
      cache := st₁.cache ++
        [(imgpathMd5, { image := image, bytes := bytes, occurrences := 0, path := imgASCIIpath })],
      cachebytes := st₁.cachebytes + bytes }

/-! ## Cache invariants -/

/-- Sum of the `bytes` fields over the live cache. -/
def sumBytes (l : List (String × CEntry)) : ℤ := (l.map (fun p => p.2.bytes)).sum

/-- The dict keys are distinct (automatic for a Python dict). -/
def KeysNodup (st : CacheState) : Prop := (st.cache.map Prod.fst).Nodup

/-- The byte counter `_cachebytes` agrees with the live cache. -/
def BytesConsistent (st : CacheState) : Prop := st.cachebytes = sumBytes st.cache

/-- Every live entry has a nonnegative footprint (true of every entry the
program stores, since `imageBytes` is nonnegative for real images). -/
def BytesNonneg (st : CacheState) : Prop := ∀ p ∈ st.cache, 0 ≤ p.2.bytes

/-- The scan and deletion loops of `_purgecache` fused into one pass:
surviving entries and the new byte counter. -/
def purgeFused (cfg : CacheConfig) (bytes : ℤ) (thr : ℕ) :
    List (String × CEntry) → ℤ → List (String × CEntry) × ℤ
  | [], cb => ([], cb)
  | (k, e) :: rest, cb =>
    if ((cb + bytes : ℤ) : ℚ) ≤ budget cfg then ((k, e) :: rest, cb)
    else if thr = 1 ∨ e.occurrences < thr then purgeFused cfg bytes thr rest (cb - e.bytes)
    else
      let r := purgeFused cfg bytes thr rest cb
      ((k, e) :: r.1, r.2)

theorem purgeScan_fst_keys (cfg : CacheConfig) (bytes : ℤ) (thr : ℕ)
    (l : List (String × CEntry)) (cb : ℤ) :
    ∀ p ∈ (purgeScan cfg bytes thr l cb).1, p.1 ∈ l.map Prod.fst := by
  induction l generalizing cb with
  | nil => intro p hp; simp [purgeScan] at hp
  | cons q rest ih =>
    cases q with | mk k e =>
      intro p hp
      simp only [purgeScan] at hp
      by_cases h : ((cb + bytes : ℤ) : ℚ) ≤ budget cfg
      · rw [if_pos h] at hp; simp at hp
      · rw [if_neg h] at hp
        by_cases h₂ : thr = 1 ∨ e.occurrences < thr
        · rw [if_pos h₂] at hp
          rcases List.mem_cons.mp hp with h₃ | h₃
          · subst h₃; simp
          · simpa using Or.inr (ih (cb - e.bytes) p h₃)
        · rw [if_neg h₂] at hp
          simpa using Or.inr (ih cb p hp)

theorem foldl_eraseKey_notmem (t : List (String × CEntry)) (k : String) (e : CEntry)
    (acc : List (String × CEntry)) (hk : ∀ p ∈ t, p.1 ≠ k) :
    t.foldl (fun c p => eraseKey p.1 c) ((k, e) :: acc) =
      (k, e) :: t.foldl (fun c p => eraseKey p.1 c) acc := by
  induction t generalizing acc with
  | nil => rfl
  | cons q rest ih =>
    cases q with | mk k₁ e₁ =>
      have hk₁ : k ≠ k₁ := fun h => (hk (k₁, e₁) (by simp)) h.symm
      have h₁ : eraseKey k₁ ((k, e) :: acc) = (k, e) :: eraseKey k₁ acc := by
        simp [eraseKey, hk₁]
      simp only [List.foldl_cons, h₁]
      exact ih (eraseKey k₁ acc) (fun p hp => hk p (by simp [hp]))

/-- With distinct keys, deleting the trash after the scan is the same as
evicting in one fused pass. -/
theorem purgeScan_applyTrash_eq_fused (cfg : CacheConfig) (bytes : ℤ) (thr : ℕ)
    (l : List (String × CEntry)) (cb : ℤ) (hnd : (l.map Prod.fst).Nodup) :
    ((purgeScan cfg bytes thr l cb).1.foldl (fun c p => eraseKey p.1 c) l,
      (purgeScan cfg bytes thr l cb).2) = purgeFused cfg bytes thr l cb := by
  induction l generalizing cb with
  | nil => rfl
  | cons q rest ih =>
    cases q with | mk k e =>
      have hnd₁ : (rest.map Prod.fst).Nodup := (List.nodup_cons.mp hnd).2
      have hknotin : k ∉ rest.map Prod.fst := (List.nodup_cons.mp hnd).1
      by_cases h : ((cb + bytes : ℤ) : ℚ) ≤ budget cfg
      · have h₁ : purgeScan cfg bytes thr ((k, e) :: rest) cb = ([], cb) := by
          simp only [purgeScan]; rw [if_pos h]
        have h₂ : purgeFused cfg bytes thr ((k, e) :: rest) cb = ((k, e) :: rest, cb) := by
          simp only [purgeFused]; rw [if_pos h]
        rw [h₁, h₂]
        rfl
      · by_cases h₂ : thr = 1 ∨ e.occurrences < thr
        · have h₁ : purgeScan cfg bytes thr ((k, e) :: rest) cb =
              ((k, e) :: (purgeScan cfg bytes thr rest (cb - e.bytes)).1,
                (purgeScan cfg bytes thr rest (cb - e.bytes)).2) := by
            simp only [purgeScan]; rw [if_neg h, if_pos h₂]
          have h₃ : purgeFused cfg bytes thr ((k, e) :: rest) cb =
              purgeFused cfg bytes thr rest (cb - e.bytes) := by
            simp only [purgeFused]; rw [if_neg h, if_pos h₂]
          rw [h₁, h₃]
          have h₄ : eraseKey k ((k, e) :: rest) = rest := by simp [eraseKey]
          simp only [List.foldl_cons, h₄]
          exact ih (cb - e.bytes) hnd₁
        · have h₁ : purgeScan cfg bytes thr ((k, e) :: rest) cb =
              purgeScan cfg bytes thr rest cb := by
            simp only [purgeScan]; rw [if_neg h, if_neg h₂]
          have h₃ : purgeFused cfg bytes thr ((k, e) :: rest) cb =
              ((k, e) :: (purgeFused cfg bytes thr rest cb).1,
                (purgeFused cfg bytes thr rest cb).2) := by
            simp only [purgeFused]; rw [if_neg h, if_neg h₂]
          rw [h₁, h₃]
          have h₅ : ∀ p ∈ (purgeScan cfg bytes thr rest cb).1, p.1 ≠ k := by
            intro p hp hpk
            exact hknotin (hpk ▸ purgeScan_fst_keys cfg bytes thr rest cb p hp)
          rw [foldl_eraseKey_notmem _ k e rest h₅]
          have h₆ := ih cb hnd₁
          rw [Prod.ext_iff] at h₆
          exact Prod.ext (by simpa using h₆.1) (by simpa using h₆.2)

/-- The fused pass keeps a sublist of the entries. -/
theorem purgeFused_sublist (cfg : CacheConfig) (bytes : ℤ) (thr : ℕ)
    (l : List (String × CEntry)) (cb : ℤ) :
    (purgeFused cfg bytes thr l cb).1.Sublist l := by
  induction l generalizing cb with
  | nil => simp [purgeFused]
  | cons q rest ih =>
    cases q with | mk k e =>
      by_cases h : ((cb + bytes : ℤ) : ℚ) ≤ budget cfg
      · have h₁ : purgeFused cfg bytes thr ((k, e) :: rest) cb = ((k, e) :: rest, cb) := by
          simp only [purgeFused]; rw [if_pos h]
        rw [h₁]
      · by_cases h₂ : thr = 1 ∨ e.occurrences < thr
        · have h₁ : purgeFused cfg bytes thr ((k, e) :: rest) cb =
              purgeFused cfg bytes thr rest (cb - e.bytes) := by
            simp only [purgeFused]; rw [if_neg h, if_pos h₂]
          rw [h₁]
          exact (ih (cb - e.bytes)).cons _
        · have h₁ : purgeFused cfg bytes thr ((k, e) :: rest) cb =
              ((k, e) :: (purgeFused cfg bytes thr rest cb).1,
                (purgeFused cfg bytes thr rest cb).2) := by
            simp only [purgeFused]; rw [if_neg h, if_neg h₂]
          rw [h₁]
          exact (ih cb).cons₂ _

/-- The fused pass subtracts exactly the evicted bytes. -/
theorem purgeFused_cachebytes (cfg : CacheConfig) (bytes : ℤ) (thr : ℕ)
    (l : List (String × CEntry)) (cb : ℤ) :
    (purgeFused cfg bytes thr l cb).2 =
      cb - sumBytes l + sumBytes (purgeFused cfg bytes thr l cb).1 := by
  induction l generalizing cb with
  | nil => simp [purgeFused, sumBytes]
  | cons q rest ih =>
    cases q with | mk k e =>
      by_cases h : ((cb + bytes : ℤ) : ℚ) ≤ budget cfg
      · have h₁ : purgeFused cfg bytes thr ((k, e) :: rest) cb = ((k, e) :: rest, cb) := by
          simp only [purgeFused]; rw [if_pos h]
        rw [h₁]
        ring
      · by_cases h₂ : thr = 1 ∨ e.occurrences < thr
        · have h₁ : purgeFused cfg bytes thr ((k, e) :: rest) cb =
              purgeFused cfg bytes thr rest (cb - e.bytes) := by
            simp only [purgeFused]; rw [if_neg h, if_pos h₂]
          rw [h₁, ih (cb - e.bytes)]
          simp [sumBytes]
          ring
        · have h₁ : purgeFused cfg bytes thr ((k, e) :: rest) cb =
              ((k, e) :: (purgeFused cfg bytes thr rest cb).1,
                (purgeFused cfg bytes thr rest cb).2) := by
            simp only [purgeFused]; rw [if_neg h, if_neg h₂]
          rw [h₁]
          simp only [sumBytes, List.map_cons, List.sum_cons]
          have := ih cb
          simp only [sumBytes] at this
          rw [this]
          ring

/-- One scan-plus-deletion round of `_purgecache` computes the fused pass. -/
theorem purgeRound_eq_fused (cfg : CacheConfig) (bytes : ℤ) (thr : ℕ) (st : CacheState)
    (occ : ℕ) (hnd : KeysNodup st) :
    (applyTrash (purgeScan cfg bytes thr st.cache st.cachebytes).1
        { st with cachebytes := (purgeScan cfg bytes thr st.cache st.cachebytes).2 } occ).1.cache =
      (purgeFused cfg bytes thr st.cache st.cachebytes).1 ∧
    (applyTrash (purgeScan cfg bytes thr st.cache st.cachebytes).1
        { st with cachebytes := (purgeScan cfg bytes thr st.cache st.cachebytes).2 } occ).1.cachebytes =
      (purgeFused cfg bytes thr st.cache st.cachebytes).2 := by
  have hmain := purgeScan_applyTrash_eq_fused cfg bytes thr st.cache st.cachebytes hnd
  rw [Prod.ext_iff] at hmain
  constructor
  · rw [applyTrash_cache]
    exact hmain.1
  · rw [applyTrash_cachebytes]
    exact hmain.2

/-- Specification of `_purgecache`: the survivors are a sublist of the
original entries, the byte counter stays consistent with them, and on
return either the requested bytes fit in the budget or the cache is
empty. -/
theorem purgecache_spec (cfg : CacheConfig) (st : CacheState) (bytes : ℤ) (occurrences : ℕ)
    (hnd : KeysNodup st) (hbc : BytesConsistent st) :
    (purgecache cfg st bytes occurrences).cache.Sublist st.cache ∧
    BytesConsistent (purgecache cfg st bytes occurrences) ∧
    ((((purgecache cfg st bytes occurrences).cachebytes + bytes : ℤ) : ℚ) ≤ budget cfg ∨
      (purgecache cfg st bytes occurrences).cache = []) := by
  induction st, bytes, occurrences using purgecache.induct cfg with
  | case1 st bytes occurrences thr s ta h ih =>
    have hround := purgeRound_eq_fused cfg bytes thr st thr hnd
    have hsub : ta.1.cache.Sublist st.cache := by
      rw [hround.1]
      exact purgeFused_sublist cfg bytes thr st.cache st.cachebytes
    have hnd₁ : KeysNodup ta.1 := by
      unfold KeysNodup
      exact List.Nodup.sublist (hsub.map Prod.fst) hnd
    have hbc₁ : BytesConsistent ta.1 := by
      unfold BytesConsistent
      rw [hround.1, hround.2, purgeFused_cachebytes]
      rw [BytesConsistent] at hbc
      rw [hbc]
      ring
    have hres : purgecache cfg st bytes occurrences = purgecache cfg ta.1 bytes (ta.2 + 1) := by
      rw [purgecache]
      exact dif_pos h
    rw [hres]
    rcases ih hnd₁ hbc₁ with ⟨ih₁, ih₂, ih₃⟩
    exact ⟨ih₁.trans hsub, ih₂, ih₃⟩
  | case2 st bytes occurrences thr s ta h =>
    have hround := purgeRound_eq_fused cfg bytes thr st thr hnd
    have hsub : ta.1.cache.Sublist st.cache := by
      rw [hround.1]
      exact purgeFused_sublist cfg bytes thr st.cache st.cachebytes
    have hbc₁ : BytesConsistent ta.1 := by
      unfold BytesConsistent
      rw [hround.1, hround.2, purgeFused_cachebytes]
      rw [BytesConsistent] at hbc
      rw [hbc]
      ring
    have hres : purgecache cfg st bytes occurrences = ta.1 := by
      rw [purgecache]
      exact dif_neg h
    rw [hres]
    refine ⟨hsub, hbc₁, ?_⟩
    rcases not_and_or.mp h with h₁ | h₁
    · exact Or.inl (not_lt.mp h₁)
    · exact Or.inr (not_not.mp h₁)

theorem eraseKey_sublist (k : String) (l : List (String × CEntry)) :
    (eraseKey k l).Sublist l := by
  induction l with
  | nil => simp [eraseKey]
  | cons p rest ih =>
    cases p with | mk k₁ e =>
      by_cases h : k₁ = k
      · simp only [eraseKey, if_pos h]
        exact (List.sublist_cons_self _ _)
      · simp only [eraseKey, if_neg h]
        exact ih.cons₂ _

theorem sumBytes_eraseKey (k : String) (l : List (String × CEntry)) (p : String × CEntry)
    (hfind : l.find? (fun q => q.1 = k) = some p) :
    sumBytes (eraseKey k l) = sumBytes l - p.2.bytes := by
  induction l with
  | nil => simp at hfind
  | cons q rest ih =>
    by_cases h : q.1 = k
    · rw [List.find?_cons_of_pos _ (by simp [h])] at hfind
      cases hfind
      obtain ⟨k₁, e⟩ := p
      simp only at h
      simp [eraseKey, h, sumBytes]
    · rw [List.find?_cons_of_neg _ (by simp [h])] at hfind
      obtain ⟨k₁, e⟩ := q
      simp only at h
      simp only [eraseKey, if_neg h, sumBytes, List.map_cons, List.sum_cons]
      have := ih hfind
      rw [sumBytes] at this
      rw [this]
      rw [sumBytes]
      ring

theorem map_fst_updateEntry (k : String) (e₁ : CEntry) (l : List (String × CEntry)) :
    (updateEntry k e₁ l).map Prod.fst = l.map Prod.fst := by
  induction l with
  | nil => rfl
  | cons q rest ih =>
    cases q with | mk k₂ e =>
      by_cases h : k₂ = k
      · simp [updateEntry, h]
      · simp [updateEntry, h, ih]

theorem sumBytes_updateEntry (k : String) (e₁ : CEntry) (l : List (String × CEntry))
    (p : String × CEntry) (hfind : l.find? (fun q => q.1 = k) = some p) :
    sumBytes (updateEntry k e₁ l) = sumBytes l - p.2.bytes + e₁.bytes := by
  induction l with
  | nil => simp at hfind
  | cons q rest ih =>
    by_cases h : q.1 = k
    · rw [List.find?_cons_of_pos _ (by simp [h])] at hfind
      cases hfind
      obtain ⟨k₂, e⟩ := p
      simp only at h
      simp only [updateEntry, if_pos h, sumBytes, List.map_cons, List.sum_cons]
      ring
    · rw [List.find?_cons_of_neg _ (by simp [h])] at hfind
      obtain ⟨k₂, e⟩ := q
      simp only at h
      simp only [updateEntry, if_neg h, sumBytes, List.map_cons, List.sum_cons]
      have := ih hfind
      rw [sumBytes] at this
      rw [this, sumBytes]
      ring

theorem sumBytes_append (l₁ l₂ : List (String × CEntry)) :
    sumBytes (l₁ ++ l₂) = sumBytes l₁ + sumBytes l₂ := by
  simp [sumBytes]

theorem lookupEntry_none_notmem (st : CacheState) (k : String)
    (h : lookupEntry st k = none) : k ∉ st.cache.map Prod.fst := by
  intro hmem
  rcases List.mem_map.mp hmem with ⟨p, hp, hpk⟩
  rw [lookupEntry, Option.map_eq_none'] at h
  have := List.find?_eq_none.mp h p hp
  simp [hpk] at this

theorem lookupEntry_some_mem (st : CacheState) (k : String) (e : CEntry)
    (h : lookupEntry st k = some e) : (k, e) ∈ st.cache := by
  rw [lookupEntry] at h
  rcases Option.map_eq_some.mp h with ⟨p, hp, hpe⟩
  have hmem := List.mem_of_find?_eq_some hp
  have hkey := List.find?_some hp
  cases p with | mk k₁ e₁ =>
    simp only [decide_eq_true_eq] at hkey
    cases hkey
    cases hpe
    exact hmem

/-- `_delimage` preserves the cache invariants and leaves
`_max_occurrences` alone. -/
theorem delimage_spec (st : CacheState) (key : String) (hbc : BytesConsistent st) :
    (delimage st key).cache.Sublist st.cache ∧ BytesConsistent (delimage st key) ∧
      (delimage st key).maxOccurrences = st.maxOccurrences := by
  rw [delimage]
  cases hl : lookupEntry st key with
  | none => exact ⟨List.Sublist.refl _, hbc, rfl⟩
  | some e =>
    refine ⟨eraseKey_sublist _ _, ?_, rfl⟩
    rw [lookupEntry] at hl
    rcases Option.map_eq_some.mp hl with ⟨p, hp, hpe⟩
    rw [BytesConsistent] at hbc
    rw [BytesConsistent]
    simp only
    rw [sumBytes_eraseKey key st.cache p hp, hbc, hpe]

/-- `_checkpurgecache` preserves the cache invariants. -/
theorem checkpurgecache_spec (cfg : CacheConfig) (fmt md5 : String) (st : CacheState)
    (bytes : ℤ) (hnd : KeysNodup st) (hbc : BytesConsistent st) :
    (checkpurgecache cfg fmt md5 st bytes).cache.Sublist st.cache ∧
      BytesConsistent (checkpurgecache cfg fmt md5 st bytes) := by
  rw [checkpurgecache]
  by_cases h : cfg.usecache = true ∧ fmt ≠ "[internal]"
  · rw [if_pos h]
    by_cases h₂ : ((st.cachebytes + bytes : ℤ) : ℚ) > budget cfg
    · rw [if_pos h₂]
      have := purgecache_spec cfg st bytes 0 hnd hbc
      exact ⟨this.1, this.2.1⟩
    · rw [if_neg h₂]
      exact ⟨List.Sublist.refl _, hbc⟩
  · rw [if_neg h]
    have hdel := delimage_spec st md5 hbc
    by_cases h₂ : (delimage st md5).maxOccurrences ≠ []
    · rw [if_pos h₂]
      exact ⟨hdel.1, hdel.2.1⟩
    · rw [if_neg h₂]
      exact ⟨hdel.1, hdel.2.1⟩

/-- With caching on and a non-internal image, `_checkpurgecache` returns a
state where the request fits or the cache is empty. -/
theorem checkpurgecache_budget (cfg : CacheConfig) (fmt md5 : String) (st : CacheState)
    (bytes : ℤ) (hnd : KeysNodup st) (hbc : BytesConsistent st)
    (hu : cfg.usecache = true) (hf : fmt ≠ "[internal]") :
    (((checkpurgecache cfg fmt md5 st bytes).cachebytes + bytes : ℤ) : ℚ) ≤ budget cfg ∨
      (checkpurgecache cfg fmt md5 st bytes).cache = [] := by
  rw [checkpurgecache, if_pos ⟨hu, hf⟩]
  by_cases h₂ : ((st.cachebytes + bytes : ℤ) : ℚ) > budget cfg
  · rw [if_pos h₂]
    exact (purgecache_spec cfg st bytes 0 hnd hbc).2.2
  · rw [if_neg h₂]
    exact Or.inl (not_lt.mp h₂)

theorem find?_updateEntry_self (k : String) (e₁ : CEntry) (l : List (String × CEntry)) :
    (updateEntry k e₁ l).find? (fun p => p.1 = k) =
      (l.find? (fun p => p.1 = k)).map (fun p => (p.1, e₁)) := by
  induction l with
  | nil => rfl
  | cons q rest ih =>
    obtain ⟨k₂, e⟩ := q
    by_cases h : k₂ = k
    · simp [updateEntry, h, List.find?_cons_of_pos]
    · rw [updateEntry, if_neg h, List.find?_cons_of_neg _ (by simp [h]),
        List.find?_cons_of_neg _ (by simp [h])]
      exact ih

theorem find?_updateEntry_ne (k : String) (e₁ : CEntry) (l : List (String × CEntry))
    (k₁ : String) (h : k₁ ≠ k) :
    (updateEntry k e₁ l).find? (fun p => p.1 = k₁) = l.find? (fun p => p.1 = k₁) := by
  induction l with
  | nil => rfl
  | cons q rest ih =>
    obtain ⟨k₂, e⟩ := q
    by_cases h₂ : k₂ = k
    · subst h₂
      rw [updateEntry, if_pos rfl, List.find?_cons_of_neg _ (by simp [Ne.symm h]),
        List.find?_cons_of_neg _ (by simp [Ne.symm h])]
    · rw [updateEntry, if_neg h₂]
      by_cases h₃ : k₂ = k₁
      · subst h₃
        rw [List.find?_cons_of_pos _ (by simp), List.find?_cons_of_pos _ (by simp)]
      · rw [List.find?_cons_of_neg _ (by simp [h₃]), List.find?_cons_of_neg _ (by simp [h₃])]
        exact ih

theorem find?_of_mem_nodup (l : List (String × CEntry)) (hnd : (l.map Prod.fst).Nodup)
    (k : String) (e : CEntry) (hmem : (k, e) ∈ l) :
    l.find? (fun p => p.1 = k) = some (k, e) := by
  induction l with
  | nil => simp at hmem
  | cons q rest ih =>
    rw [List.map_cons, List.nodup_cons] at hnd
    rcases List.mem_cons.mp hmem with h | h
    · rw [← h]
      exact List.find?_cons_of_pos _ (by simp)
    · have hq : q.1 ≠ k := by
        intro hk
        exact hnd.1 (hk ▸ List.mem_map.mpr ⟨(k, e), h, rfl⟩)
      rw [List.find?_cons_of_neg _ (by simp [hq])]
      exact ih hnd.2 h

/-- The reference count the cache holds for a key (0 when absent). -/
def occOf (st : CacheState) (k : String) : ℕ :=
  match lookupEntry st k with
  | some e => e.occurrences
  | none => 0

theorem occOf_le_of_sublist (st₁ st₂ : CacheState) (hnd : KeysNodup st₂)
    (hsub : st₁.cache.Sublist st₂.cache) (k : String) : occOf st₁ k ≤ occOf st₂ k := by
  rw [occOf]
  cases hl : lookupEntry st₁ k with
  | none => exact Nat.zero_le _
  | some e =>
    have hmem : (k, e) ∈ st₂.cache := hsub.subset (lookupEntry_some_mem st₁ k e hl)
    have : lookupEntry st₂ k = some e := by
      rw [lookupEntry, find?_of_mem_nodup st₂.cache hnd k e hmem]
      rfl
    rw [occOf, this]

theorem occOf_checkpurgecache_le (cfg : CacheConfig) (fmt md5 : String) (st : CacheState)
    (bytes : ℤ) (hnd : KeysNodup st) (hbc : BytesConsistent st) (k : String) :
    occOf (checkpurgecache cfg fmt md5 st bytes) k ≤ occOf st k :=
  occOf_le_of_sublist _ st hnd (checkpurgecache_spec cfg fmt md5 st bytes hnd hbc).1 k

/-- `_setimage` preserves the cache invariants. -/
theorem setimage_spec (cfg : CacheConfig) (fmt md5 path : String) (st : CacheState)
    (image : CImage) (hnd : KeysNodup st) (hbc : BytesConsistent st) :
    KeysNodup (setimage cfg fmt md5 path st image) ∧
      BytesConsistent (setimage cfg fmt md5 path st image) := by
  rw [setimage]
  have hcp := checkpurgecache_spec cfg fmt md5 st (imageBytes image) hnd hbc
  set st₁ := checkpurgecache cfg fmt md5 st (imageBytes image) with hst₁
  have hnd₁ : KeysNodup st₁ := List.Nodup.sublist (hcp.1.map Prod.fst) hnd
  have hbc₁ : BytesConsistent st₁ := hcp.2
  cases hl : lookupEntry st₁ md5 with
  | some e =>
    constructor
    · rw [KeysNodup]
      simp only
      rw [map_fst_updateEntry]
      exact hnd₁
    · rw [lookupEntry] at hl
      rcases Option.map_eq_some.mp hl with ⟨p, hp, hpe⟩
      rw [BytesConsistent]
      simp only
      rw [sumBytes_updateEntry md5 _ st₁.cache p hp]
      rw [BytesConsistent] at hbc₁
      rw [hbc₁, hpe]
  | none =>
    constructor
    · rw [KeysNodup]
      simp only [List.map_append]
      rw [List.nodup_append]
      refine ⟨hnd₁, by simp, ?_⟩
      intro a ha hb
      simp at hb
      exact lookupEntry_none_notmem st₁ md5 hl (hb ▸ ha)
    · rw [BytesConsistent]
      simp only
      have hs : sumBytes [(md5, { image := image, bytes := imageBytes image,
                                  occurrences := 0, path := path })] = imageBytes image := by
        simp [sumBytes]
      rw [BytesConsistent] at hbc₁
      rw [sumBytes_append, hs, hbc₁]

/-- After `_setimage` with caching on, either the byte counter fits the
budget, or the cache consists of exactly the admitted entry. -/
theorem setimage_budget (cfg : CacheConfig) (fmt md5 path : String) (st : CacheState)
    (image : CImage) (hnd : KeysNodup st) (hbc : BytesConsistent st) (hnn : BytesNonneg st)
    (hu : cfg.usecache = true) (hf : fmt ≠ "[internal]") :
    (((setimage cfg fmt md5 path st image).cachebytes : ℤ) : ℚ) ≤ budget cfg ∨
      (setimage cfg fmt md5 path st image).cache =
        [(md5, { image := image, bytes := imageBytes image, occurrences := 0,
                 path := path })] := by
  rw [setimage]
  have hcp := checkpurgecache_spec cfg fmt md5 st (imageBytes image) hnd hbc
  have hcb := checkpurgecache_budget cfg fmt md5 st (imageBytes image) hnd hbc hu hf
  set st₁ := checkpurgecache cfg fmt md5 st (imageBytes image) with hst₁
  have hnn₁ : BytesNonneg st₁ := fun p hp => hnn p (hcp.1.subset hp)
  rcases hcb with hfit | hempty
  · cases hl : lookupEntry st₁ md5 with
    | some e =>
      left
      simp only
      have he : 0 ≤ e.bytes := hnn₁ (md5, e) (lookupEntry_some_mem st₁ md5 e hl)
      have : ((st₁.cachebytes - e.bytes + imageBytes image : ℤ) : ℚ) ≤
          ((st₁.cachebytes + imageBytes image : ℤ) : ℚ) := by
        push_cast
        have : ((e.bytes : ℤ) : ℚ) ≥ 0 := by exact_mod_cast he
        linarith
      exact this.trans hfit
    | none =>
      left
      simp only
      exact hfit
  · have hl : lookupEntry st₁ md5 = none := by
      rw [lookupEntry, hempty]
      rfl
    simp only [hl]
    right
    rw [hempty]
    simp

/-- `_setimage` never raises any reference count: an updated entry keeps
its `occurrences`, a fresh entry starts at 0, and purge only removes
entries. -/
theorem occOf_setimage_le (cfg : CacheConfig) (fmt md5 path : String) (st : CacheState)
    (image : CImage) (hnd : KeysNodup st) (hbc : BytesConsistent st) (k : String) :
    occOf (setimage cfg fmt md5 path st image) k ≤ occOf st k := by
  rw [setimage]
  have hcp := checkpurgecache_spec cfg fmt md5 st (imageBytes image) hnd hbc
  set st₁ := checkpurgecache cfg fmt md5 st (imageBytes image) with hst₁
  have hle : occOf st₁ k ≤ occOf st k := occOf_le_of_sublist st₁ st hnd hcp.1 k
  cases hl : lookupEntry st₁ md5 with
  | some e =>
    refine le_trans (le_of_eq ?_) hle
    rw [lookupEntry] at hl
    rcases Option.map_eq_some.mp hl with ⟨p, hp, hpe⟩
    by_cases hk : k = md5
    · subst hk
      rw [occOf, occOf, lookupEntry, lookupEntry]
      simp only
      rw [find?_updateEntry_self, hp]
      simp [hpe]
    · rw [occOf, occOf, lookupEntry, lookupEntry]
      simp only
      rw [find?_updateEntry_ne _ _ _ _ hk]
  | none =>
    by_cases hk : k = md5
    · subst hk
      have h0 : occOf ({ st₁ with
          cache := st₁.cache ++
            [(k, { image := image, bytes := imageBytes image, occurrences := 0,
                   path := path })],
          cachebytes := st₁.cachebytes + imageBytes image } : CacheState) k = 0 := by
        rw [occOf, lookupEntry]
        simp only
        rw [List.find?_append]
        rw [lookupEntry, Option.map_eq_none'] at hl
        rw [hl]
        simp [List.find?]
      rw [h0]
      exact Nat.zero_le _
    · refine le_trans (le_of_eq ?_) hle
      rw [occOf, occOf, lookupEntry, lookupEntry]
      simp only
      rw [List.find?_append]
      have h₂ : List.find? (fun p => p.1 = k)
          [(md5, ({ image := image, bytes := imageBytes image, occurrences := 0,
                    path := path } : CEntry))] = none := by
        have hd : decide (md5 = k) = false := decide_eq_false (fun h => hk (Eq.symm h))
        simp [List.find?, hd]
      rw [h₂]
      simp only [Option.or_none]

/-- `_inc_occurrences` keeps the byte counter consistent and the key set
unchanged. -/
theorem inc_occurrences_spec (st : CacheState) (key : String) (hbc : BytesConsistent st) :
    BytesConsistent (inc_occurrences st key) ∧
      (inc_occurrences st key).cache.map Prod.fst = st.cache.map Prod.fst ∧
      (inc_occurrences st key).cachebytes = st.cachebytes := by
  rw [inc_occurrences]
  cases hl : lookupEntry st key with
  | none => exact ⟨hbc, rfl, rfl⟩
  | some e =>
    dsimp only
    rw [lookupEntry] at hl
    rcases Option.map_eq_some.mp hl with ⟨p, hp, hpe⟩
    have hbc₂ : st.cachebytes = sumBytes (updateEntry key
        { e with occurrences := e.occurrences + 1 } st.cache) := by
      rw [sumBytes_updateEntry key _ st.cache p hp, hpe]
      rw [BytesConsistent] at hbc
      rw [hbc]
      ring
    by_cases h : st.maxOccurrences = [] ∨ st.maxOccurrences.getLastD 0 < e.occurrences + 1
    · rw [if_pos h]
      exact ⟨hbc₂, map_fst_updateEntry _ _ _, rfl⟩
    · rw [if_neg h]
      exact ⟨hbc₂, map_fst_updateEntry _ _ _, rfl⟩

/-! ## Claim C4 -/

/-- Concrete inputs for the C4 counterexample: a 1 MB budget and a 4 MiB
CMYK image admitted into an empty cache. -/
def c4cfg : CacheConfig := { usecache := true, cachemegs := 1 }

def c4img : CImage := { mode := some PMode.CMYK, w := 1024, h := 1024, dataLen := 0 }

def c4st0 : CacheState := { cache := [], cachebytes := 0, maxOccurrences := [] }

theorem c4_imageBytes : imageBytes c4img = 4194304 := by decide

theorem c4_setimage_eq :
    setimage c4cfg "tiff" "k0" "p0" c4st0 c4img =
      { cache := [("k0", { image := c4img, bytes := 4194304, occurrences := 0,
                           path := "p0" })],
        cachebytes := 4194304, maxOccurrences := [] } := by
  rw [setimage]
  have h₁ : checkpurgecache c4cfg "tiff" "k0" c4st0 (imageBytes c4img) = c4st0 := by
    rw [checkpurgecache, if_pos (by decide)]
    rw [if_pos (by rw [c4_imageBytes]; norm_num [c4st0, budget, c4cfg])]
    rw [purgecache]
    have hthr : ¬ ((0 : ℕ) = 0 ∧ c4st0.maxOccurrences ≠ []) := by
      simp [c4st0]
    rw [if_neg hthr]
    simp [purgeScan, applyTrash, c4st0]
  rw [h₁]
  have h₂ : lookupEntry c4st0 "k0" = none := rfl
  rw [h₂]
  simp [c4st0, c4_imageBytes]

/-- C4: the claim asserts the byte counter never exceeds
`cachemegs × 1024 × 1024` after any admission, "including admission of a
single entry larger than the whole budget"; the code admits the oversized
entry after purging everything, so the counter ends at the entry's size,
above the budget.  Concretely: admitting a 1024×1024 CMYK image
(4 194 304 bytes) into an empty, consistent cache with `cachemegs = 1`
leaves `_cachebytes = 4 194 304 > 1 048 576`. -/
theorem C4_counterexample :
    KeysNodup c4st0 ∧ BytesConsistent c4st0 ∧ c4cfg.usecache = true ∧
      ¬ ((((setimage c4cfg "tiff" "k0" "p0" c4st0 c4img).cachebytes : ℤ) : ℚ) ≤
          budget c4cfg) := by
  refine ⟨by rw [KeysNodup]; decide, by rw [BytesConsistent]; decide, rfl, ?_⟩
  rw [c4_setimage_eq]
  norm_num [budget, c4cfg]

/-- C4 (amended): the byte counter equals the sum of the `bytes` fields
of the live memory-cache entries after every cache operation
(`_setimage`, `_delimage`, `_purgecache`, `_inc_occurrences`,
`_checkpurgecache`), and after an admission with caching enabled and a
non-internal image the counter is within `cachemegs × 1024 × 1024`
unless the cache then consists of exactly the newly admitted entry,
whose size alone may exceed the budget. -/
theorem C4_cache_bytes_invariant (cfg : CacheConfig) (fmt md5 path k : String)
    (st : CacheState) (image : CImage) (bytes : ℤ) (occ : ℕ)
    (hnd : KeysNodup st) (hbc : BytesConsistent st) (hnn : BytesNonneg st) :
    BytesConsistent (setimage cfg fmt md5 path st image) ∧
    BytesConsistent (delimage st k) ∧
    BytesConsistent (purgecache cfg st bytes occ) ∧
    BytesConsistent (inc_occurrences st k) ∧
    BytesConsistent (checkpurgecache cfg fmt md5 st bytes) ∧
    (cfg.usecache = true → fmt ≠ "[internal]" →
      (((setimage cfg fmt md5 path st image).cachebytes : ℤ) : ℚ) ≤ budget cfg ∨
        (setimage cfg fmt md5 path st image).cache =
          [(md5, { image := image, bytes := imageBytes image, occurrences := 0,
                   path := path })]) :=
  ⟨(setimage_spec cfg fmt md5 path st image hnd hbc).2,
   (delimage_spec st k hbc).2.1,
   (purgecache_spec cfg st bytes occ hnd hbc).2.1,
   (inc_occurrences_spec st k hbc).1,
   (checkpurgecache_spec cfg fmt md5 st bytes hnd hbc).2,
   fun hu hf => setimage_budget cfg fmt md5 path st image hnd hbc hnn hu hf⟩

/-- Witness for C4 (amended): the oversized admission of the
counterexample state satisfies the amended claim through its second
disjunct (the cache is exactly the admitted entry). -/
theorem C4_cache_bytes_invariant_witness :
    BytesConsistent (setimage c4cfg "tiff" "k0" "p0" c4st0 c4img) ∧
      ((((setimage c4cfg "tiff" "k0" "p0" c4st0 c4img).cachebytes : ℤ) : ℚ) ≤ budget c4cfg ∨
        (setimage c4cfg "tiff" "k0" "p0" c4st0 c4img).cache =
          [("k0", { image := c4img, bytes := imageBytes c4img, occurrences := 0,
                    path := "p0" })]) := by
  have h := C4_cache_bytes_invariant c4cfg "tiff" "k0" "p0" "k0" c4st0 c4img 0 0
    (by rw [KeysNodup]; decide) (by rw [BytesConsistent]; decide)
    (by rw [BytesNonneg]; decide)
  exact ⟨h.1, h.2.2.2.2.2 rfl (by decide)⟩

/-! ## Claim C8 -/

/-- The first eviction round with a threshold other than 1 only evicts
entries whose `occurrences` is below the threshold. -/
theorem purgeScan_occ_lt (cfg : CacheConfig) (bytes : ℤ) (thr : ℕ) (hthr : thr ≠ 1)
    (l : List (String × CEntry)) (cb : ℤ) :
    ∀ p ∈ (purgeScan cfg bytes thr l cb).1, p.2.occurrences < thr := by
  induction l generalizing cb with
  | nil => intro p hp; simp [purgeScan] at hp
  | cons q rest ih =>
    obtain ⟨k, e⟩ := q
    intro p hp
    by_cases h : ((cb + bytes : ℤ) : ℚ) ≤ budget cfg
    · rw [show purgeScan cfg bytes thr ((k, e) :: rest) cb = ([], cb) by
        simp only [purgeScan]; rw [if_pos h]] at hp
      simp at hp
    · by_cases h₂ : thr = 1 ∨ e.occurrences < thr
      · rw [show purgeScan cfg bytes thr ((k, e) :: rest) cb =
            ((k, e) :: (purgeScan cfg bytes thr rest (cb - e.bytes)).1,
              (purgeScan cfg bytes thr rest (cb - e.bytes)).2) by
          simp only [purgeScan]; rw [if_neg h, if_pos h₂]] at hp
        rcases List.mem_cons.mp hp with h₃ | h₃
        · subst h₃
          rcases h₂ with h₂ | h₂
          · exact absurd h₂ hthr
          · exact h₂
        · exact ih (cb - e.bytes) p h₃
      · rw [show purgeScan cfg bytes thr ((k, e) :: rest) cb =
            purgeScan cfg bytes thr rest cb by
          simp only [purgeScan]; rw [if_neg h, if_neg h₂]] at hp
        exact ih cb p hp

/-- The property the claim asserts of eviction (`_purgecache` entered from
`_checkpurgecache` with argument 0): an entry is never evicted while an
entry with fewer occurrences survives. -/
def EvictionByOccurrence (cfg : CacheConfig) (st : CacheState) (bytes : ℤ) : Prop :=
  ∀ k e k₁ e₁, (k, e) ∈ st.cache → (k, e) ∉ (purgecache cfg st bytes 0).cache →
    (k₁, e₁) ∈ (purgecache cfg st bytes 0).cache → e.occurrences ≤ e₁.occurrences

/-- Concrete state for the C8 counterexample: budget 150 bytes, three
entries in dict order C (1 byte, 4 references), A (100 bytes, 3
references), B (100 bytes, 1 reference); largest reference count seen 4;
45 further bytes requested. -/
def c8cfg : CacheConfig := { usecache := true, cachemegs := 150 / 1048576 }

def c8eC : CEntry :=
  { image := { mode := some PMode.L, w := 1, h := 1, dataLen := 0 },
    bytes := 1, occurrences := 4, path := "pC" }

def c8eA : CEntry :=
  { image := { mode := some PMode.L, w := 10, h := 10, dataLen := 0 },
    bytes := 100, occurrences := 3, path := "pA" }

def c8eB : CEntry :=
  { image := { mode := some PMode.L, w := 10, h := 10, dataLen := 0 },
    bytes := 100, occurrences := 1, path := "pB" }

def c8st : CacheState :=
  { cache := [("C", c8eC), ("A", c8eA), ("B", c8eB)], cachebytes := 201,
    maxOccurrences := [1, 2, 3, 4] }

theorem c8_budget : budget c8cfg = 150 := by
  rw [budget, c8cfg]
  norm_num

theorem c8_purgecache_eq :
    purgecache c8cfg c8st 45 0 =
      { cache := [("C", c8eC), ("B", c8eB)], cachebytes := 101,
        maxOccurrences := [1, 2, 3] } := by
  rw [purgecache]
  have hthr : ((0 : ℕ) = 0 ∧ c8st.maxOccurrences ≠ []) := by simp [c8st]
  rw [if_pos hthr]
  have hgl : c8st.maxOccurrences.getLastD 1 = 4 := by decide
  rw [hgl]
  have hscan : purgeScan c8cfg 45 4 c8st.cache c8st.cachebytes = ([("A", c8eA)], 101) := by
    show purgeScan c8cfg 45 4 (("C", c8eC) :: ("A", c8eA) :: ("B", c8eB) :: []) 201 =
      ([("A", c8eA)], 101)
    rw [purgeScan]
    rw [if_neg (by rw [c8_budget]; norm_num)]
    rw [if_neg (by decide)]
    rw [purgeScan]
    rw [if_neg (by rw [c8_budget]; norm_num)]
    rw [if_pos (by decide)]
    have : purgeScan c8cfg 45 4 [("B", c8eB)] (201 - c8eA.bytes) = ([], 101) := by
      rw [purgeScan]
      rw [if_pos (by rw [c8_budget]; show ((201 - c8eA.bytes + 45 : ℤ) : ℚ) ≤ 150; norm_num [c8eA])]
      decide
    rw [this]
  rw [hscan]
  have htrash : applyTrash [("A", c8eA)]
      { c8st with cachebytes := 101 } 4 =
      ({ cache := [("C", c8eC), ("B", c8eB)], cachebytes := 101,
         maxOccurrences := [1, 2, 3] }, 3) := by
    rw [applyTrash]
    simp [c8st, eraseKey, applyTrash]
  rw [htrash]
  rw [dif_neg (by rw [c8_budget]; norm_num)]

/-- C8: the claim says an entry with more occurrences is never evicted
while one with fewer occurrences survives.  In the concrete state
`c8st` the scan (threshold 4, the largest reference count seen) reaches
entry A (3 references) before entry B (1 reference), evicts A, and then
the budget fits, so B survives: 3 ≤ 1 fails. -/
theorem C8_counterexample : ¬ EvictionByOccurrence c8cfg c8st 45 := by
  intro hP
  have h := hP "A" c8eA "B" c8eB (by rw [c8st]; simp)
    (by rw [c8_purgecache_eq]; decide) (by rw [c8_purgecache_eq]; decide)
  rw [show c8eA.occurrences = 3 from rfl, show c8eB.occurrences = 1 from rfl] at h
  omega

/-- C8 (amended): eviction scans the cache in dict order.  A first round
evicts only scanned entries whose `occurrences` is below the starting
threshold (the largest reference count seen), stopping as soon as the
budget fits; if the budget still does not fit, a further round evicts
scanned entries regardless of occurrences (the threshold is reset to 1,
not raised); afterwards the requested bytes fit in the budget or the
cache is empty. -/
theorem C8_purge_rounds (cfg : CacheConfig) (st : CacheState) (bytes : ℤ)
    (hnd : KeysNodup st) (hbc : BytesConsistent st) :
    ((((purgecache cfg st bytes 0).cachebytes + bytes : ℤ) : ℚ) ≤ budget cfg ∨
      (purgecache cfg st bytes 0).cache = []) ∧
    (∀ thr, thr ≠ 1 →
      ∀ p ∈ (purgeScan cfg bytes thr st.cache st.cachebytes).1, p.2.occurrences < thr) :=
  ⟨(purgecache_spec cfg st bytes 0 hnd hbc).2.2,
   fun thr hthr p hp => purgeScan_occ_lt cfg bytes thr hthr st.cache st.cachebytes p hp⟩

/-- Witness for C8 (amended) at the counterexample state: after the
purge the 45 requested bytes fit (101 + 45 ≤ 150). -/
theorem C8_purge_rounds_witness :
    (((purgecache c8cfg c8st 45 0).cachebytes + 45 : ℤ) : ℚ) ≤ budget c8cfg ∨
      (purgecache c8cfg c8st 45 0).cache = [] :=
  (C8_purge_rounds c8cfg c8st 45 (by rw [KeysNodup]; decide)
    (by rw [BytesConsistent]; decide)).1

/-! ## Claim C3 -/

/-- MD5 hex digest of a path (`md5(path).hexdigest()`), modelled as an
injective tag: only equality of the derived dict keys matters. -/
def md5hex (s : String) : String := s

/-- Outcomes of the external PIL/ImageCms calls during one object's
processing: whether the crop-area test fires (opi.py:1607), whether
`crop()` raises (opi.py:1632), whether the downsample test fires
(opi.py:1657), whether `resize()` raises (opi.py:1710), whether
`_ICCtransform` hits the unsupported-profile-colourspace abort
(opi.py:1389-1392), and whether it stores a converted image
(opi.py:1419). -/
structure RunOutcome where
  cropNeeded : Bool
  cropRaises : Bool
  dsNeeded : Bool
  resizeRaises : Bool
  iccAborts : Bool
  iccTransforms : Bool
deriving DecidableEq

/-- Result of processing one OPI object at cache granularity. -/
structure ProcResult where
  st : CacheState
  aborted : Bool
  errorcount : ℕ
  consumed : Bool
deriving DecidableEq

/-- The tail of `_write` from `_ICCtransform` (opi.py:2216) to the
post-emission bookkeeping: the transform may abort without touching the
cache (`_abort` only resets per-object state, opi.py:489-492), otherwise
it may store the converted image under the current key; after the
emitter has consumed the data `_inc_occurrences` runs (opi.py:2262) and
the trailing `_checkpurgecache(0)` (opi.py:2908). -/
def iccAndEmit (cfg : CacheConfig) (fmt key path : String) (transformedImg : CImage)
    (o : RunOutcome) (st : CacheState) : ProcResult :=
  if o.iccAborts then { st := st, aborted := true, errorcount := 0, consumed := false }
  else
    let st₁ := if o.iccTransforms then setimage cfg fmt key path st transformedImg else st
    let st₂ := inc_occurrences st₁ key
    let st₃ := checkpurgecache cfg fmt key st₂ 0
    { st := st₃, aborted := false, errorcount := 0, consumed := true }

/-- Cache-level trace of processing one OPI object (opi.py:1997-2262 with
`_CropAndDownsample`, opi.py:1595-1721): opening the file stores the
image under the original path's key (opi.py:2006); the crop and
downsample stages re-key to the conditioned path
(`_gettmppath() + crc32(...)`, opi.py:1614-1618) and store intermediate
images as they go; a raising stage increments `errorcount` and calls
`_abort`, which leaves `_imagecache` untouched. -/
def processObject (cfg : CacheConfig) (fmt origPath condPath : String)
    (origImg croppedImg resizedImg transformedImg : CImage) (o : RunOutcome)
    (st0 : CacheState) : ProcResult :=
  let st := setimage cfg fmt (md5hex origPath) origPath st0 origImg
  if o.cropNeeded then
    if o.cropRaises then
      { st := st, aborted := true, errorcount := 1, consumed := false }
    else
      let st₁ := setimage cfg fmt (md5hex condPath) condPath st croppedImg
      if o.dsNeeded then
        if o.resizeRaises then
          { st := st₁, aborted := true, errorcount := 1, consumed := false }
        else
          let st₂ := setimage cfg fmt (md5hex condPath) condPath st₁ resizedImg
          iccAndEmit cfg fmt (md5hex condPath) condPath transformedImg o st₂
      else iccAndEmit cfg fmt (md5hex condPath) condPath transformedImg o st₁
  else
    if o.dsNeeded then
      if o.resizeRaises then
        { st := st, aborted := true, errorcount := 1, consumed := false }
      else
        let st₂ := setimage cfg fmt (md5hex condPath) condPath st resizedImg
        iccAndEmit cfg fmt (md5hex condPath) condPath transformedImg o st₂
    else iccAndEmit cfg fmt (md5hex origPath) origPath transformedImg o st

theorem iccAndEmit_aborted_eq (cfg : CacheConfig) (fmt key path : String)
    (timg : CImage) (o : RunOutcome) (st : CacheState) (h : o.iccAborts = true) :
    iccAndEmit cfg fmt key path timg o st =
      { st := st, aborted := true, errorcount := 0, consumed := false } := by
  rw [iccAndEmit, if_pos h]

theorem iccAndEmit_not_aborted (cfg : CacheConfig) (fmt key path : String)
    (timg : CImage) (o : RunOutcome) (st : CacheState) (h : o.iccAborts = false) :
    (iccAndEmit cfg fmt key path timg o st).aborted = false := by
  rw [iccAndEmit, if_neg (by simp [h])]

/-- Evaluation helper: storing a fresh image when the budget is not
exceeded appends the entry. -/
theorem setimage_fresh (cfg : CacheConfig) (fmt md5 path : String) (st : CacheState)
    (image : CImage)
    (hu : cfg.usecache = true) (hf : fmt ≠ "[internal]")
    (hfit : ¬ ((st.cachebytes + imageBytes image : ℤ) : ℚ) > budget cfg)
    (hl : lookupEntry st md5 = none) :
    setimage cfg fmt md5 path st image =
      { st with
        cache := st.cache ++ [(md5, { image := image, bytes := imageBytes image,
                                      occurrences := 0, path := path })],
        cachebytes := st.cachebytes + imageBytes image } := by
  rw [setimage]
  have h₁ : checkpurgecache cfg fmt md5 st (imageBytes image) = st := by
    rw [checkpurgecache, if_pos ⟨hu, hf⟩, if_neg hfit]
  rw [h₁, hl]

/-- Concrete inputs for the C3 counterexample: a successful crop followed
by a raising resize. -/
def c3cfg : CacheConfig := { usecache := true, cachemegs := 256 }

def c3o : RunOutcome :=
  { cropNeeded := true, cropRaises := false, dsNeeded := true, resizeRaises := true,
    iccAborts := false, iccTransforms := false }

def c3orig : CImage := { mode := some PMode.RGB, w := 100, h := 100, dataLen := 0 }

def c3crop : CImage := { mode := some PMode.RGB, w := 50, h := 50, dataLen := 0 }

def c3st0 : CacheState := { cache := [], cachebytes := 0, maxOccurrences := [] }

theorem c3_run_eq :
    processObject c3cfg "tiff" "orig" "cond" c3orig c3crop c3crop c3crop c3o c3st0 =
      { st := { cache := [("orig", { image := c3orig, bytes := 30000, occurrences := 0,
                                     path := "orig" }),
                          ("cond", { image := c3crop, bytes := 7500, occurrences := 0,
                                     path := "cond" })],
                cachebytes := 37500, maxOccurrences := [] },
        aborted := true, errorcount := 1, consumed := false } := by
  have h1 : setimage c3cfg "tiff" (md5hex "orig") "orig" c3st0 c3orig =
      { cache := [("orig", { image := c3orig, bytes := 30000, occurrences := 0,
                             path := "orig" })],
        cachebytes := 30000, maxOccurrences := [] } := by
    rw [setimage_fresh c3cfg "tiff" (md5hex "orig") "orig" c3st0 c3orig rfl (by decide)
      (by rw [show imageBytes c3orig = 30000 from by decide]
          norm_num [c3st0, budget, c3cfg])
      (by decide)]
    rw [show imageBytes c3orig = 30000 from by decide]
    rfl
  have h2 : setimage c3cfg "tiff" (md5hex "cond") "cond"
      ({ cache := [("orig", { image := c3orig, bytes := 30000, occurrences := 0,
                              path := "orig" })],
         cachebytes := 30000, maxOccurrences := [] } : CacheState) c3crop =
      { cache := [("orig", { image := c3orig, bytes := 30000, occurrences := 0,
                             path := "orig" }),
                  ("cond", { image := c3crop, bytes := 7500, occurrences := 0,
                             path := "cond" })],
        cachebytes := 37500, maxOccurrences := [] } := by
    rw [setimage_fresh _ _ _ _ _ _ rfl (by decide)
      (by rw [show imageBytes c3crop = 7500 from by decide]
          norm_num [budget, c3cfg])
      (by decide)]
    rw [show imageBytes c3crop = 7500 from by decide]
    rfl
  simp only [processObject, c3o, if_true, h1, h2, Bool.false_eq_true, if_false]

/-- C3: the claim says a mid-pipeline failure leaves no partial entry for
the image in the memory cache.  Concretely, with crop succeeding and
resize raising, the run aborts with the cropped intermediate still
cached under the conditioned-image key. -/
theorem C3_counterexample :
    (processObject c3cfg "tiff" "orig" "cond" c3orig c3crop c3crop c3crop c3o c3st0).aborted =
        true ∧
      lookupEntry
          (processObject c3cfg "tiff" "orig" "cond" c3orig c3crop c3crop c3crop c3o c3st0).st
          (md5hex "cond") =
        some { image := c3crop, bytes := 7500, occurrences := 0, path := "cond" } := by
  rw [c3_run_eq]
  exact ⟨rfl, by decide⟩

/-- In every aborted branch of `processObject` the emitter never ran. -/
theorem processObject_aborted_not_consumed (cfg : CacheConfig)
    (fmt origPath condPath : String) (origImg croppedImg resizedImg transformedImg : CImage)
    (o : RunOutcome) (st0 : CacheState) :
    (processObject cfg fmt origPath condPath origImg croppedImg resizedImg transformedImg
        o st0).aborted = true →
    (processObject cfg fmt origPath condPath origImg croppedImg resizedImg transformedImg
        o st0).consumed = false := by
  obtain ⟨cN, cR, dN, rR, iA, iT⟩ := o
  cases cN <;> cases cR <;> cases dN <;> cases rR <;> cases iA <;>
    simp [processObject, iccAndEmit]

/-- C3 (amended): a mid-pipeline failure (a raising crop or resize, or
the colour-transform abort) leaves the run aborted with the partially
conditioned entries still in the memory cache, the conditioned image
never consumed by the emitter, and no reference count ever increased:
`_inc_occurrences` runs only after the emitter has consumed the
conditioned image.  (No disk entry can be left behind: `_write` never
saves conditioned images to disk.) -/
theorem C3_failing_run_no_occurrence_increase (cfg : CacheConfig)
    (fmt origPath condPath : String) (origImg croppedImg resizedImg transformedImg : CImage)
    (o : RunOutcome) (st0 : CacheState)
    (hnd : KeysNodup st0) (hbc : BytesConsistent st0) :
    (processObject cfg fmt origPath condPath origImg croppedImg resizedImg transformedImg
        o st0).aborted = true →
    (processObject cfg fmt origPath condPath origImg croppedImg resizedImg transformedImg
        o st0).consumed = false ∧
    ∀ k, occOf (processObject cfg fmt origPath condPath origImg croppedImg resizedImg
        transformedImg o st0).st k ≤ occOf st0 k := by
  intro hab
  refine ⟨processObject_aborted_not_consumed cfg fmt origPath condPath origImg croppedImg
    resizedImg transformedImg o st0 hab, fun k => ?_⟩
  have spec0 := setimage_spec cfg fmt (md5hex origPath) origPath st0 origImg hnd hbc
  have hA : occOf (setimage cfg fmt (md5hex origPath) origPath st0 origImg) k ≤ occOf st0 k :=
    occOf_setimage_le cfg fmt (md5hex origPath) origPath st0 origImg hnd hbc k
  set stA := setimage cfg fmt (md5hex origPath) origPath st0 origImg with hstA
  have specB := setimage_spec cfg fmt (md5hex condPath) condPath stA croppedImg
    spec0.1 spec0.2
  have hB : occOf (setimage cfg fmt (md5hex condPath) condPath stA croppedImg) k ≤
      occOf stA k :=
    occOf_setimage_le cfg fmt (md5hex condPath) condPath stA croppedImg spec0.1 spec0.2 k
  set stB := setimage cfg fmt (md5hex condPath) condPath stA croppedImg with hstB
  have hC : occOf (setimage cfg fmt (md5hex condPath) condPath stB resizedImg) k ≤
      occOf stB k :=
    occOf_setimage_le cfg fmt (md5hex condPath) condPath stB resizedImg specB.1 specB.2 k
  set stC := setimage cfg fmt (md5hex condPath) condPath stB resizedImg with hstC
  have hD : occOf (setimage cfg fmt (md5hex condPath) condPath stA resizedImg) k ≤
      occOf stA k :=
    occOf_setimage_le cfg fmt (md5hex condPath) condPath stA resizedImg spec0.1 spec0.2 k
  set stD := setimage cfg fmt (md5hex condPath) condPath stA resizedImg with hstD
  simp only [processObject] at hab ⊢
  rw [← hstA] at hab ⊢
  by_cases h1 : o.cropNeeded = true
  · simp only [h1, if_true] at hab ⊢
    by_cases h2 : o.cropRaises = true
    · simp only [h2, if_true] at hab ⊢
      exact hA
    · rw [Bool.not_eq_true] at h2
      simp only [h2, Bool.false_eq_true, if_false] at hab ⊢
      rw [← hstB] at hab ⊢
      by_cases h3 : o.dsNeeded = true
      · simp only [h3, if_true] at hab ⊢
        by_cases h4 : o.resizeRaises = true
        · simp only [h4, if_true] at hab ⊢
          exact hB.trans hA
        · rw [Bool.not_eq_true] at h4
          simp only [h4, Bool.false_eq_true, if_false] at hab ⊢
          rw [← hstC] at hab ⊢
          by_cases h5 : o.iccAborts = true
          · rw [iccAndEmit_aborted_eq _ _ _ _ _ _ _ h5] at hab ⊢
            exact hC.trans (hB.trans hA)
          · rw [Bool.not_eq_true] at h5
            rw [iccAndEmit_not_aborted _ _ _ _ _ _ _ h5] at hab
            exact absurd hab (by decide)
      · rw [Bool.not_eq_true] at h3
        simp only [h3, Bool.false_eq_true, if_false] at hab ⊢
        by_cases h5 : o.iccAborts = true
        · rw [iccAndEmit_aborted_eq _ _ _ _ _ _ _ h5] at hab ⊢
          exact hB.trans hA
        · rw [Bool.not_eq_true] at h5
          rw [iccAndEmit_not_aborted _ _ _ _ _ _ _ h5] at hab
          exact absurd hab (by decide)
  · rw [Bool.not_eq_true] at h1
    simp only [h1, Bool.false_eq_true, if_false] at hab ⊢
    by_cases h3 : o.dsNeeded = true
    · simp only [h3, if_true] at hab ⊢
      by_cases h4 : o.resizeRaises = true
      · simp only [h4, if_true] at hab ⊢
        exact hA
      · rw [Bool.not_eq_true] at h4
        simp only [h4, Bool.false_eq_true, if_false] at hab ⊢
        rw [← hstD] at hab ⊢
        by_cases h5 : o.iccAborts = true
        · rw [iccAndEmit_aborted_eq _ _ _ _ _ _ _ h5] at hab ⊢
          exact hD.trans hA
        · rw [Bool.not_eq_true] at h5
          rw [iccAndEmit_not_aborted _ _ _ _ _ _ _ h5] at hab
          exact absurd hab (by decide)
    · rw [Bool.not_eq_true] at h3
      simp only [h3, Bool.false_eq_true, if_false] at hab ⊢
      by_cases h5 : o.iccAborts = true
      · rw [iccAndEmit_aborted_eq _ _ _ _ _ _ _ h5] at hab ⊢
        exact hA
      · rw [Bool.not_eq_true] at h5
        rw [iccAndEmit_not_aborted _ _ _ _ _ _ _ h5] at hab
        exact absurd hab (by decide)

/-- Witness for C3 (amended) at the counterexample run: the failing
resize leaves the image unconsumed and the conditioned key's reference
count at its initial 0. -/
theorem C3_failing_run_witness :
    (processObject c3cfg "tiff" "orig" "cond" c3orig c3crop c3crop c3crop c3o
        c3st0).consumed = false ∧
    occOf (processObject c3cfg "tiff" "orig" "cond" c3orig c3crop c3crop c3crop c3o
        c3st0).st (md5hex "cond") ≤ occOf c3st0 (md5hex "cond") :=
  ⟨(C3_failing_run_no_occurrence_increase c3cfg "tiff" "orig" "cond" c3orig c3crop c3crop
      c3crop c3o c3st0 (by rw [KeysNodup]; decide) (by rw [BytesConsistent]; decide)
      (by rw [c3_run_eq])).1,
   (C3_failing_run_no_occurrence_increase c3cfg "tiff" "orig" "cond" c3orig c3crop c3crop
      c3crop c3o c3st0 (by rw [KeysNodup]; decide) (by rw [BytesConsistent]; decide)
      (by rw [c3_run_eq])).2 (md5hex "cond")⟩

/-! ## Geometry engine: crop scaling, downsample decision, crop/downsample
(`_write` opi.py:2050-2225, `_SetDownsampleDimensions` opi.py:1494-1593,
`_CropAndDownsample` opi.py:1595-1721)

This model follows the successful, non-cached processing path; the cache
bookkeeping of `_setimage` is modelled separately above, so here the
current image is threaded directly. -/

/-- A crop box `[x1, y1, x2, y2]` of floats. -/
structure Quad where
  x1 : ℚ
  y1 : ℚ
  x2 : ℚ
  y2 : ℚ
deriving DecidableEq

/-- A crop box `[x1, y1, x2, y2]` of ints. -/
structure IQuad where
  x1 : ℤ
  y1 : ℤ
  x2 : ℤ
  y2 : ℤ
deriving DecidableEq

/-- `intlist` (opi.py:2968-2975) applied to a crop box:
`int(round(float(v)))` per component. -/
def intlistQ (f : Quad) : IQuad :=
  { x1 := pyRound f.x1, y1 := pyRound f.y1, x2 := pyRound f.x2, y2 := pyRound f.y2 }

/-- The image modes that reach the geometry engine: `_write` aborts on
anything but `1`, `L`, `RGB`, `CMYK` (opi.py:2007-2017), and
`_detectcmykgrayimages` can only turn `CMYK` into `L`. -/
inductive GMode
  | one | L | RGB | CMYK
deriving DecidableEq

/-- The opened image as the geometry engine sees it:
mode, pixel size, and the optional embedded dpi (`info["dpi"]`). -/
structure GImage where
  mode : GMode
  w : ℤ
  h : ℤ
  dpi : Option (ℚ × ℚ)
deriving DecidableEq

/-- The per-run configuration the geometry engine reads
(opi.py:104-128). -/
structure GeoConfig where
  MonoImageResolution : ℚ
  MonoImageMinResolution : ℚ
  MonoImageDownsampleThreshold : ℚ
  MonoImageUseEmbeddedResolution : Bool
  DownsampleMonoImages : Bool
  GrayImageResolution : ℚ
  GrayImageMinResolution : ℚ
  GrayImageDownsampleThreshold : ℚ
  GrayImageUseEmbeddedResolution : Bool
  DownsampleGrayImages : Bool
  ColorImageResolution : ℚ
  ColorImageMinResolution : ℚ
  ColorImageDownsampleThreshold : ℚ
  ColorImageUseEmbeddedResolution : Bool
  DownsampleColorImages : Bool
  SmallHalftoneImageSize : ℚ
  SmallHalftoneImageResolutionFactor : ℚ
  TinyHalftoneImageSize : ℚ
  TinyHalftoneImageResolutionFactor : ℚ
  imagecropthreshold : ℚ
deriving DecidableEq

/-- The per-object geometry state (the IPR fields these stages touch).
`ImageDimensions` keeps the local `ImageDimensions` captured at
opi.py:2056 (the dimensions declared in the OPI comment), since
`self._ImageDimensions` is overwritten with the pixel size right after
(opi.py:2064). -/
structure GeoState where
  image : GImage
  version20 : Bool
  ImageDimensions : ℚ × ℚ
  ImageCropFixed : Option Quad
  ImageCropRect : Option IQuad
  RealCropRect : Option IQuad
  RealDimensions : Option (ℚ × ℚ)
  RealRes : Option (ℚ × ℚ)
  DownsampleDimensions : ℚ × ℚ
  DownsampleFactor : ℚ × ℚ
  DownsampleRes : Option (ℚ × ℚ)
  IncludedImageDimensions : ℤ × ℤ
  IncludedImageQuality : ℚ
  sizemod : Bool
deriving DecidableEq

/-- Lines opi.py:2050-2067: on entering the processing block the state
derived from the parsed IPR and the opened image.  `DownsampleDimensions`
and `_IncludedImageDimensions` are seeded with the opened pixel size;
`RealCropRect`, `RealRes` are still unset (from `_reset`);
`DownsampleFactor` is `[1.0, 1.0]` (opi.py:230);
`IncludedImageQuality` is 1.0 (opi.py:250). -/
def processOpen (img : GImage) (version20 : Bool) (parsedDims : ℚ × ℚ)
    (parsedCropFixed : Option Quad) (realDims : Option (ℚ × ℚ)) : GeoState :=
  { image := img, version20 := version20, ImageDimensions := parsedDims,
    ImageCropFixed := parsedCropFixed, ImageCropRect := none,
    RealCropRect := none, RealDimensions := realDims, RealRes := none,
    DownsampleDimensions := ((img.w : ℚ), (img.h : ℚ)),
    DownsampleFactor := (1, 1), DownsampleRes := none,
    IncludedImageDimensions := (img.w, img.h),
    IncludedImageQuality := 1, sizemod := false }

/-- The scaling of the fixed crop box to real pixels
(opi.py:2134-2145): per axis, `size / ImageDimensions * crop`. -/
def scaledFixed (s : GeoState) (f : Quad) : Quad :=
  { x1 := (s.image.w : ℚ) / s.ImageDimensions.1 * f.x1,
    y1 := (s.image.h : ℚ) / s.ImageDimensions.2 * f.y1,
    x2 := (s.image.w : ℚ) / s.ImageDimensions.1 * f.x2,
    y2 := (s.image.h : ℚ) / s.ImageDimensions.2 * f.y2 }

/-- Lines opi.py:2131-2186 (the not-cached / not-size-modified branch):
scale the fixed crop box to real pixels, derive the integer crop
rectangle (floors; under OPI 2.0 ceilings for x2/y2 plus the QuarkXPress
one-pixel adjustments), or use the whole image when no crop box was
parsed.  Returns the new state plus the local `_ImageCropFixed` list the
code carries into the resolution computation. -/
def scaleCropCold (s : GeoState) : GeoState × Quad :=
  match s.ImageCropFixed with
  | some f =>
    let g := scaledFixed s f
    let icr := intlistQ g
    if s.version20 then
      let sizex : ℤ := pyCeil g.x2 - ⌊g.x1⌋
      let sizey : ℤ := pyCeil g.y2 - ⌊g.y1⌋
      let rx1 : ℤ := ⌊g.x1⌋ -
        (if s.ImageDimensions.1 ≠ (sizex : ℚ) ∧ ⌊g.x1⌋ ≠ 0 then 1 else 0)
      let rx2 : ℤ := pyCeil g.x2 +
        (if s.ImageDimensions.1 ≠ (sizex : ℚ) ∧ (pyCeil g.x2 : ℚ) ≠ s.ImageDimensions.1
         then 1 else 0)
      let ry1 : ℤ := ⌊g.y1⌋ -
        (if s.ImageDimensions.2 ≠ (sizey : ℚ) ∧ ⌊g.y1⌋ ≠ 0 then 1 else 0)
      let ry2 : ℤ := pyCeil g.y2 +
        (if s.ImageDimensions.2 ≠ (sizey : ℚ) ∧ (pyCeil g.y2 : ℚ) ≠ s.ImageDimensions.2
         then 1 else 0)
      ({ s with ImageCropFixed := some g, ImageCropRect := some icr,
                RealCropRect := some { x1 := rx1, y1 := ry1, x2 := rx2, y2 := ry2 } }, g)
    else
      ({ s with ImageCropFixed := some g, ImageCropRect := some icr,
                RealCropRect := some { x1 := ⌊g.x1⌋, y1 := ⌊g.y1⌋,
                                       x2 := ⌊g.x2⌋, y2 := ⌊g.y2⌋ } }, g)
  | none =>
    ({ s with RealCropRect := some { x1 := 0, y1 := 0, x2 := s.image.w, y2 := s.image.h } },
     { x1 := 0, y1 := 0, x2 := (s.image.w : ℚ), y2 := (s.image.h : ℚ) })

/-- The `stdres` table at opi.py:2196-2199. -/
def stdresOf (cfg : GeoConfig) : GMode → ℚ
  | GMode.one => cfg.MonoImageResolution
  | GMode.L => cfg.GrayImageResolution
  | GMode.RGB => cfg.ColorImageResolution
  | GMode.CMYK => cfg.ColorImageResolution

/-- The `minres` table at opi.py:2200-2203. -/
def minresOf (cfg : GeoConfig) : GMode → ℚ
  | GMode.one => cfg.MonoImageMinResolution
  | GMode.L => cfg.GrayImageMinResolution
  | GMode.RGB => cfg.ColorImageMinResolution
  | GMode.CMYK => cfg.ColorImageMinResolution

/-- Lines opi.py:2187-2209: effective resolution from the local crop box
and the real dimensions, and the `%%IncludedImageQuality` grade. -/
def setRealRes (cfg : GeoConfig) (sg : GeoState × Quad) : GeoState :=
  let s := sg.1
  match s.RealDimensions with
  | some rd =>
    let rrx := (sg.2.x2 - sg.2.x1) / (rd.1 / 72)
    let rry := (sg.2.y2 - sg.2.y1) / (rd.2 / 72)
    let q : ℚ :=
      if min rrx rry ≥ stdresOf cfg s.image.mode then 3
      else if min rrx rry ≥ minresOf cfg s.image.mode then 2
      else s.IncludedImageQuality
    { s with RealRes := some (rrx, rry), IncludedImageQuality := q }
  | none => s

/-- The halftone size factor (opi.py:1496-1504), computed for non-mono
modes. -/
def imagesizefactorOf (cfg : GeoConfig) (rd : ℚ × ℚ) : ℚ :=
  if max rd.1 rd.2 ≤ cfg.TinyHalftoneImageSize then cfg.TinyHalftoneImageResolutionFactor
  else if max rd.1 rd.2 ≤ cfg.SmallHalftoneImageSize then cfg.SmallHalftoneImageResolutionFactor
  else 1

/-- The mono target resolution (opi.py:1505-1521): the embedded dpi when
configured and higher than `MonoImageResolution`, else the configured
resolution. -/
def monoDres (cfg : GeoConfig) (img : GImage) : ℚ × ℚ :=
  match img.dpi with
  | some d =>
    if cfg.MonoImageUseEmbeddedResolution ∧ min d.1 d.2 > cfg.MonoImageResolution then d
    else (cfg.MonoImageResolution, cfg.MonoImageResolution)
  | none => (cfg.MonoImageResolution, cfg.MonoImageResolution)

/-- The gray target resolution (opi.py:1528-1544). -/
def grayDres (cfg : GeoConfig) (img : GImage) : ℚ × ℚ :=
  match img.dpi with
  | some d =>
    if cfg.GrayImageUseEmbeddedResolution ∧ min d.1 d.2 > cfg.GrayImageResolution then d
    else (cfg.GrayImageResolution, cfg.GrayImageResolution)
  | none => (cfg.GrayImageResolution, cfg.GrayImageResolution)

/-- The colour target resolution (opi.py:1552-1569). -/
def colorDres (cfg : GeoConfig) (img : GImage) : ℚ × ℚ :=
  match img.dpi with
  | some d =>
    if cfg.ColorImageUseEmbeddedResolution ∧ min d.1 d.2 > cfg.ColorImageResolution then d
    else (cfg.ColorImageResolution, cfg.ColorImageResolution)
  | none => (cfg.ColorImageResolution, cfg.ColorImageResolution)

/-- `croppedsize` (opi.py:1576-1580): the crop box extent, or the pixel
size when no crop box is set. -/
def croppedsizeOf (s : GeoState) : ℚ × ℚ :=
  match s.ImageCropFixed with
  | some f => (f.x2 - f.x1, f.y2 - f.y1)
  | none => ((s.image.w : ℚ), (s.image.h : ℚ))

/-- `_SetDownsampleDimensions` (opi.py:1494-1593).  Guarded by
`_RealDimensions`; reading `_RealRes` with no value would raise in
Python, and the pipeline always sets it first, so that case returns the
state unchanged here.  Axes that pass the threshold test get the target
pixel count `RealDimensions/72 × target dpi (× size factor)`; then the
factor is the ratio to the cropped size, and `DownsampleDimensions` is
re-derived from the full pixel size (`ceil` under a parsed OPI 2.0,
`round` otherwise). -/
def SetDownsampleDimensions (cfg : GeoConfig) (s : GeoState) : GeoState :=
  match s.RealDimensions with
  | none => s
  | some rd =>
    match s.RealRes with
    | none => s
    | some rr =>
      let isf := imagesizefactorOf cfg rd
      let s₁ :=
        if s.image.mode = GMode.one ∧ cfg.DownsampleMonoImages then
          let dres := monoDres cfg s.image
          let dd1 := if rr.1 > dres.1 * cfg.MonoImageDownsampleThreshold
            then rd.1 / 72 * dres.1 else s.DownsampleDimensions.1
          let dd2 := if rr.2 > dres.2 * cfg.MonoImageDownsampleThreshold
            then rd.2 / 72 * dres.2 else s.DownsampleDimensions.2
          { s with DownsampleRes := some dres, DownsampleDimensions := (dd1, dd2) }
        else if s.image.mode = GMode.L ∧ cfg.DownsampleGrayImages then
          let dres := grayDres cfg s.image
          let dd1 := if rr.1 > dres.1 * cfg.GrayImageDownsampleThreshold * isf
            then rd.1 / 72 * dres.1 * isf else s.DownsampleDimensions.1
          let dd2 := if rr.2 > dres.2 * cfg.GrayImageDownsampleThreshold * isf
            then rd.2 / 72 * dres.2 * isf else s.DownsampleDimensions.2
          { s with DownsampleRes := some dres, DownsampleDimensions := (dd1, dd2) }
        else if (s.image.mode = GMode.RGB ∨ s.image.mode = GMode.CMYK) ∧
            cfg.DownsampleColorImages then
          let dres := colorDres cfg s.image
          let dd1 := if rr.1 > dres.1 * cfg.ColorImageDownsampleThreshold * isf
            then rd.1 / 72 * dres.1 * isf else s.DownsampleDimensions.1
          let dd2 := if rr.2 > dres.2 * cfg.ColorImageDownsampleThreshold * isf
            then rd.2 / 72 * dres.2 * isf else s.DownsampleDimensions.2
          { s with DownsampleRes := some dres, DownsampleDimensions := (dd1, dd2) }
        else s
      let cs := croppedsizeOf s
      let factor := (s₁.DownsampleDimensions.1 / cs.1, s₁.DownsampleDimensions.2 / cs.2)
      let dd : ℚ × ℚ :=
        if s.version20 then
          ((pyCeil ((s.image.w : ℚ) * factor.1) : ℚ), (pyCeil ((s.image.h : ℚ) * factor.2) : ℚ))
        else
          ((pyRound ((s.image.w : ℚ) * factor.1) : ℚ), (pyRound ((s.image.h : ℚ) * factor.2) : ℚ))
      { s₁ with DownsampleFactor := factor, DownsampleDimensions := dd }

/-- `_CropAndDownsample` (opi.py:1595-1721), success path (the
`try`/`except` failure paths abort the object and are modelled in the
cache section).  Returns the state plus the local `cropped` flag and
whether the downsample branch ran.  `none` models the Python errors on a
state the pipeline never produces: a missing `_RealCropRect`
(opi.py:1599 would raise), and the downsample branch with an empty
`_ImageCropFixed` (opi.py:1681 raises; the `except` aborts).  A
degenerate crop rectangle would raise `ZeroDivisionError` at
opi.py:1607; here the division is total, so a nonzero crop area is a
hypothesis of the theorems. -/
def CropAndDownsample (cfg : GeoConfig) (s₀ : GeoState) : Option (GeoState × Bool × Bool) :=
  let s := { s₀ with sizemod := false }
  match s.RealCropRect with
  | none => none
  | some rc =>
    let ratio : ℚ := ((s.image.w * s.image.h : ℤ) : ℚ) /
      (((rc.x2 - rc.x1) * (rc.y2 - rc.y1) : ℤ) : ℚ)
    let cropped := ratio ≥ cfg.imagecropthreshold
    let img₁ : GImage := if cropped
      then { s.image with w := rc.x2 - rc.x1, h := rc.y2 - rc.y1 } else s.image
    let endsize : ℤ × ℤ := if cropped then (rc.x2 - rc.x1, rc.y2 - rc.y1)
      else (s.image.w, s.image.h)
    let s₁ := if cropped then { s with image := img₁, sizemod := true }
      else { s with RealCropRect := some { x1 := 0, y1 := 0, x2 := s.image.w, y2 := s.image.h } }
    let dd : ℤ × ℤ :=
      if s.version20 then
        (pyCeil ((endsize.1 : ℚ) * s.DownsampleFactor.1),
         pyCeil ((endsize.2 : ℚ) * s.DownsampleFactor.2))
      else
        (pyRound ((endsize.1 : ℚ) * s.DownsampleFactor.1),
         pyRound ((endsize.2 : ℚ) * s.DownsampleFactor.2))
    let s₂ := { s₁ with DownsampleDimensions := ((dd.1 : ℚ), (dd.2 : ℚ)) }
    if dd.1 < endsize.1 ∨ dd.2 < endsize.2 then
      match s.ImageCropFixed with
      | none => none
      | some f =>
        let img₂ : GImage := { img₁ with w := dd.1, h := dd.2 }
        let f₁ : Quad := { x1 := f.x1 * s.DownsampleFactor.1, y1 := f.y1 * s.DownsampleFactor.2,
                           x2 := f.x2 * s.DownsampleFactor.1, y2 := f.y2 * s.DownsampleFactor.2 }
        let rcr : IQuad :=
          if cropped then
            { x1 := ⌊f₁.x1⌋, y1 := ⌊f₁.y1⌋,
              x2 := if s.version20 then pyCeil f₁.x2 else ⌊f₁.x2⌋,
              y2 := if s.version20 then pyCeil f₁.y2 else ⌊f₁.y2⌋ }
          else { x1 := 0, y1 := 0, x2 := img₂.w, y2 := img₂.h }
        some ({ s₂ with image := img₂, sizemod := true, ImageCropFixed := some f₁,
                        ImageCropRect := some (intlistQ f₁), RealCropRect := some rcr,
                        IncludedImageDimensions := (img₂.w, img₂.h) },
              cropped, true)
    else
      some (s₂, cropped, false)

/-- Emission of the `%%IncludedImageDimensions` line (opi.py:2776-2782):
written only when OPI 2.0 output is requested and the image is not
EPSF. -/
def emittedIncludedImageDimensions (version20req : Bool) (isEps : Bool)
    (s : GeoState) : Option (ℤ × ℤ) :=
  if version20req ∧ ¬ isEps then some s.IncludedImageDimensions else none

/-- The full non-cached geometry pipeline of `_write` for one raster
object: capture state, scale the crop box, compute the effective
resolution, pick downsample targets, crop and downsample. -/
def processNonCached (cfg : GeoConfig) (img : GImage) (version20 : Bool)
    (parsedDims : ℚ × ℚ) (parsedCropFixed : Option Quad)
    (realDims : Option (ℚ × ℚ)) : Option (GeoState × Bool × Bool) :=
  CropAndDownsample cfg
    (SetDownsampleDimensions cfg
      (setRealRes cfg (scaleCropCold (processOpen img version20 parsedDims
        parsedCropFixed realDims))))

/-! ## Claim C1 (with the concrete run shared by C2) -/

/-- The default configuration (opi.py:104-128). -/
def defaultGeoConfig : GeoConfig :=
  { MonoImageResolution := 1200, MonoImageMinResolution := 800,
    MonoImageDownsampleThreshold := 2, MonoImageUseEmbeddedResolution := true,
    DownsampleMonoImages := true,
    GrayImageResolution := 300, GrayImageMinResolution := 200,
    GrayImageDownsampleThreshold := 2, GrayImageUseEmbeddedResolution := true,
    DownsampleGrayImages := true,
    ColorImageResolution := 300, ColorImageMinResolution := 200,
    ColorImageDownsampleThreshold := 2, ColorImageUseEmbeddedResolution := true,
    DownsampleColorImages := true,
    SmallHalftoneImageSize := 160, SmallHalftoneImageResolutionFactor := 1,
    TinyHalftoneImageSize := 80, TinyHalftoneImageResolutionFactor := 1,
    imagecropthreshold := 11/10 }

/-- A 100×100 RGB hi-res image without embedded dpi. -/
def c1img : GImage := { mode := GMode.RGB, w := 100, h := 100, dpi := none }

/-- The parsed crop box: the left-bottom quarter of the image. -/
def c1quad : Quad := { x1 := 0, y1 := 0, x2 := 50, y2 := 50 }

def c1s0 : GeoState :=
  { image := c1img, version20 := false, ImageDimensions := (100, 100),
    ImageCropFixed := some c1quad, ImageCropRect := none, RealCropRect := none,
    RealDimensions := some (72, 72), RealRes := none,
    DownsampleDimensions := (100, 100), DownsampleFactor := (1, 1),
    DownsampleRes := none, IncludedImageDimensions := (100, 100),
    IncludedImageQuality := 1, sizemod := false }

theorem c1_open_eq :
    processOpen c1img false (100, 100) (some c1quad) (some (72, 72)) = c1s0 := by
  norm_num [processOpen, c1s0, c1img]

def c1s1 : GeoState :=
  { c1s0 with ImageCropFixed := some c1quad,
              ImageCropRect := some { x1 := 0, y1 := 0, x2 := 50, y2 := 50 },
              RealCropRect := some { x1 := 0, y1 := 0, x2 := 50, y2 := 50 } }

theorem c1_scale_eq : scaleCropCold c1s0 = (c1s1, c1quad) := by
  norm_num [scaleCropCold, scaledFixed, intlistQ, pyRound, c1s0, c1s1, c1img, c1quad]

def c1s2 : GeoState := { c1s1 with RealRes := some (50, 50) }

theorem c1_realres_eq : setRealRes defaultGeoConfig (c1s1, c1quad) = c1s2 := by
  norm_num [setRealRes, stdresOf, minresOf, c1s1, c1s0, c1s2, c1img, c1quad,
    defaultGeoConfig]

def c1s3 : GeoState :=
  { c1s2 with DownsampleRes := some (300, 300), DownsampleFactor := (2, 2),
              DownsampleDimensions := (200, 200) }

theorem c1_setdd_eq : SetDownsampleDimensions defaultGeoConfig c1s2 = c1s3 := by
  have hA : ¬ (GMode.RGB = GMode.one) := by decide
  have hB : ¬ (GMode.RGB = GMode.L) := by decide
  norm_num [SetDownsampleDimensions, monoDres, grayDres, colorDres, imagesizefactorOf,
    croppedsizeOf, pyRound, c1s2, c1s1, c1s0, c1s3, c1img, c1quad, defaultGeoConfig,
    hA, hB]

def c1r : GeoState :=
  { c1s3 with image := { mode := GMode.RGB, w := 50, h := 50, dpi := none },
              DownsampleDimensions := (100, 100), sizemod := true }

theorem c1_cropds_eq :
    CropAndDownsample defaultGeoConfig c1s3 = some (c1r, true, false) := by
  norm_num [CropAndDownsample, pyRound, c1s3, c1s2, c1s1, c1s0, c1r, c1img, c1quad,
    defaultGeoConfig]

theorem c1_pipeline_eq :
    processNonCached defaultGeoConfig c1img false (100, 100) (some c1quad)
      (some (72, 72)) = some (c1r, true, false) := by
  rw [processNonCached, c1_open_eq, c1_scale_eq, c1_realres_eq, c1_setdd_eq, c1_cropds_eq]

/-- C1: the claim says the emitted `%%IncludedImageDimensions` always
equals the conditioned image's pixel size, in particular when the image
was cropped but not downsampled.  In the concrete run the crop shrinks
the image to 50×50 but no downsampling fires, and the emitted line still
carries the opened size 100×100. -/
theorem C1_counterexample :
    ¬ (∀ r : GeoState, ∀ c d : Bool,
      processNonCached defaultGeoConfig c1img false (100, 100) (some c1quad)
          (some (72, 72)) = some (r, c, d) →
      emittedIncludedImageDimensions true false r = some (r.image.w, r.image.h)) := by
  intro hP
  have h := hP c1r true false c1_pipeline_eq
  rw [emittedIncludedImageDimensions, if_pos (by simp)] at h
  rw [c1r, c1s3, c1s2, c1s1, c1s0] at h
  simp at h

/-- C1 (amended): after `_CropAndDownsample`, the
`_IncludedImageDimensions` field (the value the emitter writes) equals
the conditioned image's pixel size whenever the downsample branch ran;
when it did not run — in particular when the image was cropped but not
downsampled — the field keeps its previous value, the opened image's
pre-crop size. -/
theorem C1_included_image_dimensions (cfg : GeoConfig) (s : GeoState) (r : GeoState)
    (c d : Bool) (h : CropAndDownsample cfg s = some (r, c, d)) :
    (d = true → r.IncludedImageDimensions = (r.image.w, r.image.h)) ∧
    (d = false → r.IncludedImageDimensions = s.IncludedImageDimensions) := by
  simp only [CropAndDownsample] at h
  split at h
  · exact absurd h (by simp)
  rename_i rc heq
  by_cases hv : s.version20 = true <;>
    by_cases hcrop : ((s.image.w * s.image.h : ℤ) : ℚ) /
        (((rc.x2 - rc.x1) * (rc.y2 - rc.y1) : ℤ) : ℚ) ≥ cfg.imagecropthreshold <;>
    simp only [hv, hcrop, eq_self_iff_true, if_true, if_false, ite_true, ite_false,
      Bool.false_eq_true, Bool.true_eq_false, decide_True, decide_False] at h <;>
    repeat' split at h
  all_goals try contradiction
  all_goals
    rw [Option.some_inj] at h
    simp only [Prod.mk.injEq] at h
    obtain ⟨hr, hc, hd⟩ := h
    subst hr
    subst hd
    refine ⟨fun ht => ?_, fun hf => ?_⟩
  all_goals try simp at ht
  all_goals try simp at hf
  all_goals simp

/-- Witness for C1 (amended), at the concrete run: no downsampling, so
the emitted dimensions are the pre-crop ones. -/
theorem C1_included_image_dimensions_witness :
    c1r.IncludedImageDimensions = c1s3.IncludedImageDimensions :=
  (C1_included_image_dimensions defaultGeoConfig c1s3 c1r true false c1_cropds_eq).2 rfl

/-! ## Claim C2 -/

/-- The x-axis downsample-threshold test of `_SetDownsampleDimensions`
as the code evaluates it for the image's mode (opi.py:1522-1523,
1545-1547, 1570-1571). -/
def dsFiredX (cfg : GeoConfig) (s : GeoState) (rd rr : ℚ × ℚ) : Prop :=
  (s.image.mode = GMode.one ∧ cfg.DownsampleMonoImages = true ∧
    rr.1 > (monoDres cfg s.image).1 * cfg.MonoImageDownsampleThreshold) ∨
  (s.image.mode = GMode.L ∧ cfg.DownsampleGrayImages = true ∧
    rr.1 > (grayDres cfg s.image).1 * cfg.GrayImageDownsampleThreshold *
      imagesizefactorOf cfg rd) ∨
  ((s.image.mode = GMode.RGB ∨ s.image.mode = GMode.CMYK) ∧
    cfg.DownsampleColorImages = true ∧
    rr.1 > (colorDres cfg s.image).1 * cfg.ColorImageDownsampleThreshold *
      imagesizefactorOf cfg rd)

/-- The y-axis downsample-threshold test (opi.py:1525-1527, 1549-1551,
1573-1575). -/
def dsFiredY (cfg : GeoConfig) (s : GeoState) (rd rr : ℚ × ℚ) : Prop :=
  (s.image.mode = GMode.one ∧ cfg.DownsampleMonoImages = true ∧
    rr.2 > (monoDres cfg s.image).2 * cfg.MonoImageDownsampleThreshold) ∨
  (s.image.mode = GMode.L ∧ cfg.DownsampleGrayImages = true ∧
    rr.2 > (grayDres cfg s.image).2 * cfg.GrayImageDownsampleThreshold *
      imagesizefactorOf cfg rd) ∨
  ((s.image.mode = GMode.RGB ∨ s.image.mode = GMode.CMYK) ∧
    cfg.DownsampleColorImages = true ∧
    rr.2 > (colorDres cfg s.image).2 * cfg.ColorImageDownsampleThreshold *
      imagesizefactorOf cfg rd)

/-- The per-mode downsample threshold, as each branch of
`_SetDownsampleDimensions` reads it (opi.py:1522, 1545, 1570). -/
def dsThresholdOf (cfg : GeoConfig) : GMode → ℚ
  | GMode.one => cfg.MonoImageDownsampleThreshold
  | GMode.L => cfg.GrayImageDownsampleThreshold
  | GMode.RGB => cfg.ColorImageDownsampleThreshold
  | GMode.CMYK => cfg.ColorImageDownsampleThreshold

theorem fired_factor_lt_inv (cs rdq D thr : ℚ) (hcs : 0 < cs) (hrdq : 0 < rdq)
    (hthr : 0 < thr) (hf : D * thr < cs / rdq) : rdq * D / cs < 1 / thr := by
  rw [div_lt_div_iff₀ hcs hthr]
  have h3 : D * thr * rdq < cs := (lt_div_iff₀ hrdq).mp hf
  nlinarith

/-- C2 (amended): on every axis whose downsample-threshold test fires,
the derived `_DownsampleFactor` is strictly below the reciprocal of that
mode's downsample threshold whenever the threshold is positive, and
hence at most 1 whenever the threshold is at least 1 (as in the default
configuration).  (The hypotheses tie `RealRes` and `croppedsize`
together exactly as `_write` computes them at opi.py:2187-2195 from the
same crop box `_SetDownsampleDimensions` reads at opi.py:1576-1580.)
With a sub-1 threshold the factor on a fired axis can exceed 1, and on
an axis whose test does not fire the factor is the previous
`_DownsampleDimensions` (the full pixel extent) over the crop extent and
can exceed 1 when the crop box is a strict sub-rectangle. -/
theorem C2_downsample_factor (cfg : GeoConfig) (s : GeoState) (rd rr : ℚ × ℚ)
    (hrd : s.RealDimensions = some rd) (hrr : s.RealRes = some rr)
    (hrd1 : 0 < rd.1) (hrd2 : 0 < rd.2)
    (hcs1 : (croppedsizeOf s).1 = rr.1 * (rd.1 / 72))
    (hcs2 : (croppedsizeOf s).2 = rr.2 * (rd.2 / 72))
    (hpos1 : 0 < (croppedsizeOf s).1) (hpos2 : 0 < (croppedsizeOf s).2) :
    (dsFiredX cfg s rd rr → 0 < dsThresholdOf cfg s.image.mode →
      (SetDownsampleDimensions cfg s).DownsampleFactor.1 <
        1 / dsThresholdOf cfg s.image.mode) ∧
    (dsFiredX cfg s rd rr → 1 ≤ dsThresholdOf cfg s.image.mode →
      (SetDownsampleDimensions cfg s).DownsampleFactor.1 ≤ 1) ∧
    (dsFiredY cfg s rd rr → 0 < dsThresholdOf cfg s.image.mode →
      (SetDownsampleDimensions cfg s).DownsampleFactor.2 <
        1 / dsThresholdOf cfg s.image.mode) ∧
    (dsFiredY cfg s rd rr → 1 ≤ dsThresholdOf cfg s.image.mode →
      (SetDownsampleDimensions cfg s).DownsampleFactor.2 ≤ 1) := by
  have hrdq1 : 0 < rd.1 / 72 := by positivity
  have hrdq2 : 0 < rd.2 / 72 := by positivity
  have hdiv1 : rr.1 = (croppedsizeOf s).1 / (rd.1 / 72) := by
    rw [hcs1]
    field_simp
  have hdiv2 : rr.2 = (croppedsizeOf s).2 / (rd.2 / 72) := by
    rw [hcs2]
    field_simp
  have HX : dsFiredX cfg s rd rr → 0 < dsThresholdOf cfg s.image.mode →
      (SetDownsampleDimensions cfg s).DownsampleFactor.1 <
        1 / dsThresholdOf cfg s.image.mode := by
    intro hf hthr
    rw [SetDownsampleDimensions, hrd, hrr]
    rcases hf with ⟨hmode, hflag, hcmp⟩ | ⟨hmode, hflag, hcmp⟩ | ⟨hmode, hflag, hcmp⟩
    · rw [hmode] at hthr
      simp only [hmode, hflag, dsThresholdOf, eq_self_iff_true, and_self, if_true,
        ite_true, if_pos hcmp, gt_iff_lt]
      exact fired_factor_lt_inv (croppedsizeOf s).1 (rd.1 / 72)
        (monoDres cfg s.image).1 cfg.MonoImageDownsampleThreshold hpos1 hrdq1 hthr
        (hdiv1 ▸ hcmp)
    · have hnotone : ¬ (s.image.mode = GMode.one ∧ cfg.DownsampleMonoImages = true) := by
        rw [hmode]
        simp
      rw [hmode] at hthr
      simp only [hmode, hflag, hnotone, dsThresholdOf, eq_self_iff_true, and_self,
        if_true, ite_true, if_neg hnotone, if_pos hcmp, gt_iff_lt]
      have h := fired_factor_lt_inv (croppedsizeOf s).1 (rd.1 / 72)
        ((grayDres cfg s.image).1 * imagesizefactorOf cfg rd)
        cfg.GrayImageDownsampleThreshold hpos1 hrdq1 hthr
        (by have hra : (grayDres cfg s.image).1 * imagesizefactorOf cfg rd *
              cfg.GrayImageDownsampleThreshold =
            (grayDres cfg s.image).1 * cfg.GrayImageDownsampleThreshold *
              imagesizefactorOf cfg rd := by ring
            rw [hra, ← hdiv1]
            exact hcmp)
      have hrb : rd.1 / 72 * ((grayDres cfg s.image).1 * imagesizefactorOf cfg rd) =
          rd.1 / 72 * (grayDres cfg s.image).1 * imagesizefactorOf cfg rd := by ring
      rw [hrb] at h
      exact h
    · have hnotone : ¬ (s.image.mode = GMode.one ∧ cfg.DownsampleMonoImages = true) := by
        rcases hmode with hmode | hmode <;> rw [hmode] <;> simp
      have hnotL : ¬ (s.image.mode = GMode.L ∧ cfg.DownsampleGrayImages = true) := by
        rcases hmode with hmode | hmode <;> rw [hmode] <;> simp
      have hthrC : 0 < cfg.ColorImageDownsampleThreshold := by
        rcases hmode with hmode | hmode <;> rw [hmode] at hthr <;> exact hthr
      have hinv : 1 / dsThresholdOf cfg s.image.mode =
          1 / cfg.ColorImageDownsampleThreshold := by
        rcases hmode with hmode | hmode <;> rw [hmode] <;> rfl
      rw [hinv]
      simp only [hmode, hflag, eq_self_iff_true, and_self, if_true, ite_true,
        if_neg hnotone, if_neg hnotL,
        if_pos (⟨hmode, hflag⟩ : (s.image.mode = GMode.RGB ∨ s.image.mode = GMode.CMYK) ∧
          cfg.DownsampleColorImages = true),
        if_pos hcmp, gt_iff_lt]
      have h := fired_factor_lt_inv (croppedsizeOf s).1 (rd.1 / 72)
        ((colorDres cfg s.image).1 * imagesizefactorOf cfg rd)
        cfg.ColorImageDownsampleThreshold hpos1 hrdq1 hthrC
        (by have hra : (colorDres cfg s.image).1 * imagesizefactorOf cfg rd *
              cfg.ColorImageDownsampleThreshold =
            (colorDres cfg s.image).1 * cfg.ColorImageDownsampleThreshold *
              imagesizefactorOf cfg rd := by ring
            rw [hra, ← hdiv1]
            exact hcmp)
      have hrb : rd.1 / 72 * ((colorDres cfg s.image).1 * imagesizefactorOf cfg rd) =
          rd.1 / 72 * (colorDres cfg s.image).1 * imagesizefactorOf cfg rd := by ring
      rw [hrb] at h
      exact h
  have HY : dsFiredY cfg s rd rr → 0 < dsThresholdOf cfg s.image.mode →
      (SetDownsampleDimensions cfg s).DownsampleFactor.2 <
        1 / dsThresholdOf cfg s.image.mode := by
    intro hf hthr
    rw [SetDownsampleDimensions, hrd, hrr]
    rcases hf with ⟨hmode, hflag, hcmp⟩ | ⟨hmode, hflag, hcmp⟩ | ⟨hmode, hflag, hcmp⟩
    · rw [hmode] at hthr
      simp only [hmode, hflag, dsThresholdOf, eq_self_iff_true, and_self, if_true,
        ite_true, if_pos hcmp, gt_iff_lt]
      exact fired_factor_lt_inv (croppedsizeOf s).2 (rd.2 / 72)
        (monoDres cfg s.image).2 cfg.MonoImageDownsampleThreshold hpos2 hrdq2 hthr
        (hdiv2 ▸ hcmp)
    · have hnotone : ¬ (s.image.mode = GMode.one ∧ cfg.DownsampleMonoImages = true) := by
        rw [hmode]
        simp
      rw [hmode] at hthr
      simp only [hmode, hflag, hnotone, dsThresholdOf, eq_self_iff_true, and_self,
        if_true, ite_true, if_neg hnotone, if_pos hcmp, gt_iff_lt]
      have h := fired_factor_lt_inv (croppedsizeOf s).2 (rd.2 / 72)
        ((grayDres cfg s.image).2 * imagesizefactorOf cfg rd)
        cfg.GrayImageDownsampleThreshold hpos2 hrdq2 hthr
        (by have hra : (grayDres cfg s.image).2 * imagesizefactorOf cfg rd *
              cfg.GrayImageDownsampleThreshold =
            (grayDres cfg s.image).2 * cfg.GrayImageDownsampleThreshold *
              imagesizefactorOf cfg rd := by ring
            rw [hra, ← hdiv2]
            exact hcmp)
      have hrb : rd.2 / 72 * ((grayDres cfg s.image).2 * imagesizefactorOf cfg rd) =
          rd.2 / 72 * (grayDres cfg s.image).2 * imagesizefactorOf cfg rd := by ring
      rw [hrb] at h
      exact h
    · have hnotone : ¬ (s.image.mode = GMode.one ∧ cfg.DownsampleMonoImages = true) := by
        rcases hmode with hmode | hmode <;> rw [hmode] <;> simp
      have hnotL : ¬ (s.image.mode = GMode.L ∧ cfg.DownsampleGrayImages = true) := by
        rcases hmode with hmode | hmode <;> rw [hmode] <;> simp
      have hthrC : 0 < cfg.ColorImageDownsampleThreshold := by
        rcases hmode with hmode | hmode <;> rw [hmode] at hthr <;> exact hthr
      have hinv : 1 / dsThresholdOf cfg s.image.mode =
          1 / cfg.ColorImageDownsampleThreshold := by
        rcases hmode with hmode | hmode <;> rw [hmode] <;> rfl
      rw [hinv]
      simp only [hmode, hflag, eq_self_iff_true, and_self, if_true, ite_true,
        if_neg hnotone, if_neg hnotL,
        if_pos (⟨hmode, hflag⟩ : (s.image.mode = GMode.RGB ∨ s.image.mode = GMode.CMYK) ∧
          cfg.DownsampleColorImages = true),
        if_pos hcmp, gt_iff_lt]
      have h := fired_factor_lt_inv (croppedsizeOf s).2 (rd.2 / 72)
        ((colorDres cfg s.image).2 * imagesizefactorOf cfg rd)
        cfg.ColorImageDownsampleThreshold hpos2 hrdq2 hthrC
        (by have hra : (colorDres cfg s.image).2 * imagesizefactorOf cfg rd *
              cfg.ColorImageDownsampleThreshold =
            (colorDres cfg s.image).2 * cfg.ColorImageDownsampleThreshold *
              imagesizefactorOf cfg rd := by ring
            rw [hra, ← hdiv2]
            exact hcmp)
      have hrb : rd.2 / 72 * ((colorDres cfg s.image).2 * imagesizefactorOf cfg rd) =
          rd.2 / 72 * (colorDres cfg s.image).2 * imagesizefactorOf cfg rd := by ring
      rw [hrb] at h
      exact h
  refine ⟨HX, fun hf h1 => ?_, HY, fun hf h1 => ?_⟩
  · have h0 : 0 < dsThresholdOf cfg s.image.mode := lt_of_lt_of_le zero_lt_one h1
    have hlt := HX hf h0
    have hle : 1 / dsThresholdOf cfg s.image.mode ≤ 1 := by
      rw [div_le_one h0]
      exact h1
    exact le_of_lt (lt_of_lt_of_le hlt hle)
  · have h0 : 0 < dsThresholdOf cfg s.image.mode := lt_of_lt_of_le zero_lt_one h1
    have hlt := HY hf h0
    have hle : 1 / dsThresholdOf cfg s.image.mode ≤ 1 := by
      rw [div_le_one h0]
      exact h1
    exact le_of_lt (lt_of_lt_of_le hlt hle)

/-- C2: the claim says `downsample_factor[i] ≤ 1.0` always.  In the
concrete run shared with C1 the crop box is the image's lower-left
quarter while neither axis exceeds the downsample threshold, so the
factor is `full extent / crop extent = 2` on both axes. -/
theorem C2_counterexample :
    (SetDownsampleDimensions defaultGeoConfig c1s2).DownsampleFactor = (2, 2) ∧
      ¬ ((SetDownsampleDimensions defaultGeoConfig c1s2).DownsampleFactor.1 ≤ 1) := by
  rw [c1_setdd_eq]
  constructor
  · rw [c1s3]
  · rw [c1s3]
    norm_num

/-- A concrete state whose colour-axis threshold fires: a 1000×1000 RGB
image placed at 36×36 pt with a quarter crop box. -/
def c2ws : GeoState :=
  { image := { mode := GMode.RGB, w := 1000, h := 1000, dpi := none },
    version20 := false, ImageDimensions := (1000, 1000),
    ImageCropFixed := some { x1 := 0, y1 := 0, x2 := 500, y2 := 500 },
    ImageCropRect := none, RealCropRect := some { x1 := 0, y1 := 0, x2 := 500, y2 := 500 },
    RealDimensions := some (36, 36), RealRes := some (1000, 1000),
    DownsampleDimensions := (1000, 1000), DownsampleFactor := (1, 1),
    DownsampleRes := none, IncludedImageDimensions := (1000, 1000),
    IncludedImageQuality := 1, sizemod := false }

/-- Witness for C2 (amended): with the colour threshold fired the factor
is strictly below the reciprocal threshold and bounded by 1. -/
theorem C2_downsample_factor_witness :
    (SetDownsampleDimensions defaultGeoConfig c2ws).DownsampleFactor.1 <
      1 / dsThresholdOf defaultGeoConfig c2ws.image.mode ∧
    (SetDownsampleDimensions defaultGeoConfig c2ws).DownsampleFactor.1 ≤ 1 :=
  ⟨(C2_downsample_factor defaultGeoConfig c2ws (36, 36) (1000, 1000) rfl rfl
      (by norm_num) (by norm_num)
      (by norm_num [croppedsizeOf, c2ws])
      (by norm_num [croppedsizeOf, c2ws])
      (by norm_num [croppedsizeOf, c2ws])
      (by norm_num [croppedsizeOf, c2ws])).1
      (Or.inr (Or.inr ⟨Or.inl rfl, rfl,
        by norm_num [colorDres, imagesizefactorOf, defaultGeoConfig, c2ws]⟩))
      (by norm_num [dsThresholdOf, defaultGeoConfig, c2ws]),
   (C2_downsample_factor defaultGeoConfig c2ws (36, 36) (1000, 1000) rfl rfl
      (by norm_num) (by norm_num)
      (by norm_num [croppedsizeOf, c2ws])
      (by norm_num [croppedsizeOf, c2ws])
      (by norm_num [croppedsizeOf, c2ws])
      (by norm_num [croppedsizeOf, c2ws])).2.1
      (Or.inr (Or.inr ⟨Or.inl rfl, rfl,
        by norm_num [colorDres, imagesizefactorOf, defaultGeoConfig, c2ws]⟩))
      (by norm_num [dsThresholdOf, defaultGeoConfig, c2ws])⟩

/-! ### C7: scaling the fixed crop box to real pixels -/

/-- Modelled from the spec: the claimed real crop rectangle.  Floors for
(x1,y1); under OPI 2.0 ceilings for (x2,y2) plus a conjoined pad that
lowers x1 and raises x2 together exactly when the ceiling of x2 missed
the declared image edge and the floor of x1 missed 0 (same logic for y);
floors for all four corners otherwise. -/
def specRealCropRect (s : GeoState) (f : Quad) : IQuad :=
  let g := scaledFixed s f
  if s.version20 then
    let padx : ℤ :=
      if (pyCeil g.x2 : ℚ) ≠ s.ImageDimensions.1 ∧ ⌊g.x1⌋ ≠ 0 then 1 else 0
    let pady : ℤ :=
      if (pyCeil g.y2 : ℚ) ≠ s.ImageDimensions.2 ∧ ⌊g.y1⌋ ≠ 0 then 1 else 0
    { x1 := ⌊g.x1⌋ - padx, y1 := ⌊g.y1⌋ - pady,
      x2 := pyCeil g.x2 + padx, y2 := pyCeil g.y2 + pady }
  else
    { x1 := ⌊g.x1⌋, y1 := ⌊g.y1⌋, x2 := ⌊g.x2⌋, y2 := ⌊g.y2⌋ }

/-- A 100×100 OPI 2.0 image whose fixed crop box is [0, 60.5] on both
axes: floor(x1) = 0, so the claimed conjoined pad stays off, but the
code pads x2 and y2 independently. -/
def c7cs : GeoState :=
  { image := { mode := GMode.RGB, w := 100, h := 100, dpi := none },
    version20 := true, ImageDimensions := (100, 100),
    ImageCropFixed := some { x1 := 0, y1 := 0, x2 := 121/2, y2 := 121/2 },
    ImageCropRect := none, RealCropRect := none,
    RealDimensions := none, RealRes := none,
    DownsampleDimensions := (100, 100), DownsampleFactor := (1, 1),
    DownsampleRes := none, IncludedImageDimensions := (100, 100),
    IncludedImageQuality := 1, sizemod := false }

/-- The crop box of `c7cs`, as a standalone quad. -/
def c7cf : Quad := { x1 := 0, y1 := 0, x2 := 121/2, y2 := 121/2 }

/-- Counterexample for C7: on `c7cs` the code produces the real crop
rectangle (0, 0, 62, 62) — x2 = ceil(60.5) + 1 = 62 by the independent
pad at the upper edge — while the claimed conjoined pad rule gives
(0, 0, 61, 61), because floor(x1) = 0 disables the claimed pad on both
ends of the axis. -/
theorem C7_counterexample :
    (scaleCropCold c7cs).1.RealCropRect ≠ some (specRealCropRect c7cs c7cf) ∧
    (scaleCropCold c7cs).1.RealCropRect =
      some { x1 := 0, y1 := 0, x2 := 62, y2 := 62 } ∧
    specRealCropRect c7cs c7cf = { x1 := 0, y1 := 0, x2 := 61, y2 := 61 } := by
  refine ⟨?_, ?_, ?_⟩ <;>
    norm_num [scaleCropCold, specRealCropRect, scaledFixed, intlistQ, pyRound,
      pyCeil, c7cs, c7cf]

/-- C7 (amended): scaling the fixed crop box to real pixels uses floors
for all four corners when OPI 2.0 is not active; under OPI 2.0 it uses
floors for (x1,y1), ceilings for (x2,y2), and then pads the two ends of
each axis independently, each pad additionally guarded by the declared
dimensions differing from the ceil-minus-floor extent on that axis: x1
drops by one iff that guard holds and the floor is nonzero, and x2 rises
by one iff the guard holds and the ceiling differs from the declared
dimensions (same logic for y), per opi.py:2148-2177. -/
theorem C7_real_crop_rect (s : GeoState) (f : Quad)
    (h : s.ImageCropFixed = some f) :
    (s.version20 = false →
      (scaleCropCold s).1.RealCropRect =
        some { x1 := ⌊(scaledFixed s f).x1⌋, y1 := ⌊(scaledFixed s f).y1⌋,
               x2 := ⌊(scaledFixed s f).x2⌋, y2 := ⌊(scaledFixed s f).y2⌋ }) ∧
    (s.version20 = true →
      ∃ px1 px2 py1 py2 : ℤ,
        (scaleCropCold s).1.RealCropRect =
          some { x1 := ⌊(scaledFixed s f).x1⌋ - px1,
                 y1 := ⌊(scaledFixed s f).y1⌋ - py1,
                 x2 := pyCeil (scaledFixed s f).x2 + px2,
                 y2 := pyCeil (scaledFixed s f).y2 + py2 } ∧
        (px1 = 1 ∨ px1 = 0) ∧ (px2 = 1 ∨ px2 = 0) ∧
        (py1 = 1 ∨ py1 = 0) ∧ (py2 = 1 ∨ py2 = 0) ∧
        (px1 = 1 ↔ s.ImageDimensions.1 ≠
            ((pyCeil (scaledFixed s f).x2 - ⌊(scaledFixed s f).x1⌋ : ℤ) : ℚ) ∧
          ⌊(scaledFixed s f).x1⌋ ≠ 0) ∧
        (px2 = 1 ↔ s.ImageDimensions.1 ≠
            ((pyCeil (scaledFixed s f).x2 - ⌊(scaledFixed s f).x1⌋ : ℤ) : ℚ) ∧
          (pyCeil (scaledFixed s f).x2 : ℚ) ≠ s.ImageDimensions.1) ∧
        (py1 = 1 ↔ s.ImageDimensions.2 ≠
            ((pyCeil (scaledFixed s f).y2 - ⌊(scaledFixed s f).y1⌋ : ℤ) : ℚ) ∧
          ⌊(scaledFixed s f).y1⌋ ≠ 0) ∧
        (py2 = 1 ↔ s.ImageDimensions.2 ≠
            ((pyCeil (scaledFixed s f).y2 - ⌊(scaledFixed s f).y1⌋ : ℤ) : ℚ) ∧
          (pyCeil (scaledFixed s f).y2 : ℚ) ≠ s.ImageDimensions.2)) := by
  obtain ⟨img, v20, dims, icf, icr0, rcr, rdim, rres, dd, dfac, dres, iid, iiq, sm⟩ := s
  dsimp only at h ⊢
  subst h
  constructor
  · intro hv
    subst hv
    simp [scaleCropCold]
  · intro hv
    subst hv
    simp only [scaleCropCold]
    refine ⟨_, _, _, _, rfl, ?_, ?_, ?_, ?_, ?_, ?_, ?_, ?_⟩ <;>
      · split <;> simp_all <;> tauto

/-- Witness for C7 (amended): the characterization applied to the
concrete OPI 2.0 state `c7cs`. -/
theorem C7_real_crop_rect_witness :
    (c7cs.version20 = false →
      (scaleCropCold c7cs).1.RealCropRect =
        some { x1 := ⌊(scaledFixed c7cs c7cf).x1⌋, y1 := ⌊(scaledFixed c7cs c7cf).y1⌋,
               x2 := ⌊(scaledFixed c7cs c7cf).x2⌋, y2 := ⌊(scaledFixed c7cs c7cf).y2⌋ }) ∧
    (c7cs.version20 = true →
      ∃ px1 px2 py1 py2 : ℤ,
        (scaleCropCold c7cs).1.RealCropRect =
          some { x1 := ⌊(scaledFixed c7cs c7cf).x1⌋ - px1,
                 y1 := ⌊(scaledFixed c7cs c7cf).y1⌋ - py1,
                 x2 := pyCeil (scaledFixed c7cs c7cf).x2 + px2,
                 y2 := pyCeil (scaledFixed c7cs c7cf).y2 + py2 } ∧
        (px1 = 1 ∨ px1 = 0) ∧ (px2 = 1 ∨ px2 = 0) ∧
        (py1 = 1 ∨ py1 = 0) ∧ (py2 = 1 ∨ py2 = 0) ∧
        (px1 = 1 ↔ c7cs.ImageDimensions.1 ≠
            ((pyCeil (scaledFixed c7cs c7cf).x2 - ⌊(scaledFixed c7cs c7cf).x1⌋ : ℤ) : ℚ) ∧
          ⌊(scaledFixed c7cs c7cf).x1⌋ ≠ 0) ∧
        (px2 = 1 ↔ c7cs.ImageDimensions.1 ≠
            ((pyCeil (scaledFixed c7cs c7cf).x2 - ⌊(scaledFixed c7cs c7cf).x1⌋ : ℤ) : ℚ) ∧
          (pyCeil (scaledFixed c7cs c7cf).x2 : ℚ) ≠ c7cs.ImageDimensions.1) ∧
        (py1 = 1 ↔ c7cs.ImageDimensions.2 ≠
            ((pyCeil (scaledFixed c7cs c7cf).y2 - ⌊(scaledFixed c7cs c7cf).y1⌋ : ℤ) : ℚ) ∧
          ⌊(scaledFixed c7cs c7cf).y1⌋ ≠ 0) ∧
        (py2 = 1 ↔ c7cs.ImageDimensions.2 ≠
            ((pyCeil (scaledFixed c7cs c7cf).y2 - ⌊(scaledFixed c7cs c7cf).y1⌋ : ℤ) : ℚ) ∧
          (pyCeil (scaledFixed c7cs c7cf).y2 : ℚ) ≠ c7cs.ImageDimensions.2)) :=
  C7_real_crop_rect c7cs c7cf rfl

/-! ### C5: missing hi-res file handling -/

/-- A recorded PIL line-draw call (start, end, fill). -/
structure DrawLine where
  x1 : ℤ
  y1 : ℤ
  x2 : ℤ
  y2 : ℤ
  fill : ℤ × ℤ × ℤ × ℤ
deriving DecidableEq

/-- The placeholder image built by `_failimage` (opi.py:1047-1050): a
320×240 CMYK image filled (0,255,255,0) with two diagonal lines drawn in
(0,0,0,255). -/
structure FailImage where
  mode : String
  w : ℤ
  h : ℤ
  basefill : ℤ × ℤ × ℤ × ℤ
  line1 : DrawLine
  line2 : DrawLine
deriving DecidableEq

/-- The concrete `_failimage` construction: `Image.new("CMYK", (320, 240),
(0, 255, 255, 0))`, `draw.line((0, 0) + image.size)` and
`draw.line((0, image.size[1], image.size[0], 0))`, both with fill
(0, 0, 0, 255). -/
def failimageDesc : FailImage :=
  { mode := "CMYK", w := 320, h := 240, basefill := (0, 255, 255, 0),
    line1 := { x1 := 0, y1 := 0, x2 := 320, y2 := 240, fill := (0, 0, 0, 255) },
    line2 := { x1 := 0, y1 := 240, x2 := 320, y2 := 0, fill := (0, 0, 0, 255) } }

/-- Outcome of the uncached image-open stage: error counter delta,
whether the object aborted, the substituted placeholder if any, whether
`_imageformat` was set to "[internal]", and whether processing falls
through to the crop/downsample/colour stage. -/
structure OpenResult where
  errorcount : ℕ
  aborted : Bool
  substituted : Option FailImage
  internalformat : Bool
  continues : Bool
deriving DecidableEq

/-- Lines opi.py:1997-2045 for a not-memory-cached image, specialised to
whether the hi-res file exists: a missing file sets `_errorstr` and, under
`abortonfilenotfound`, increments `errorcount` and aborts at once
(opi.py:2021-2027); otherwise the pending `_errorstr` is handled at
opi.py:2034-2041 — `errorcount` is incremented, `abortonerror` aborts
(and the `_aborted` check at 2043-2045 returns), and only with both flags
clear is `_failimage` substituted with `_imageformat = "[internal]"` and
processing continued. -/
def openStage (abortonfilenotfound abortonerror fileFound : Bool) : OpenResult :=
  if fileFound then
    { errorcount := 0, aborted := false, substituted := none,
      internalformat := false, continues := true }
  else if abortonfilenotfound then
    { errorcount := 1, aborted := true, substituted := none,
      internalformat := false, continues := false }
  else if abortonerror then
    { errorcount := 1, aborted := true, substituted := none,
      internalformat := false, continues := false }
  else
    { errorcount := 1, aborted := false, substituted := some failimageDesc,
      internalformat := true, continues := true }

/-- Counterexample for C5: with `abortonfilenotfound` unset but the other
options at their defaults (`abortonerror = True`, opi.py:80), a missing
file still aborts the object and no placeholder is substituted, so the
engine does not abort "if and only if abort_on_file_not_found is set". -/
theorem C5_counterexample :
    (openStage false true false).aborted = true ∧
    (openStage false true false).substituted = none ∧
    (openStage false true false).continues = false := by
  decide

/-- C5 (amended): a missing hi-res file always counts exactly one error;
the object aborts iff `abortonfilenotfound` or `abortonerror` is set; the
320×240 CMYK placeholder filled (0,255,255,0) with two (0,0,0,255)
diagonals is substituted, with internal format, and processing continues
exactly when both flags are clear; a found file raises no error here. -/
theorem C5_file_not_found (abortonfilenotfound abortonerror : Bool) :
    (openStage abortonfilenotfound abortonerror true).aborted = false ∧
    (openStage abortonfilenotfound abortonerror true).errorcount = 0 ∧
    (openStage abortonfilenotfound abortonerror false).errorcount = 1 ∧
    (openStage abortonfilenotfound abortonerror false).aborted =
      (abortonfilenotfound || abortonerror) ∧
    (openStage abortonfilenotfound abortonerror false).continues =
      !(abortonfilenotfound || abortonerror) ∧
    (openStage abortonfilenotfound abortonerror false).substituted =
      (if abortonfilenotfound || abortonerror then none else some failimageDesc) ∧
    (openStage abortonfilenotfound abortonerror false).internalformat =
      !(abortonfilenotfound || abortonerror) := by
  cases abortonfilenotfound <;> cases abortonerror <;> decide

/-! ### C6: abort truncates a real output file -/

/-- Events affecting the output stream: a `_raw_write` request or an
`_abort` call. -/
inductive Ev where
  | write (data : String)
  | abort
deriving DecidableEq

/-- One event against the (`_aborted`, output contents) pair:
`_raw_write` appends only while not aborted (opi.py:330-332), and
`_abort` sets `_aborted` (opi.py:489-492); nothing ever clears the flag
(it is initialised once at opi.py:194). -/
def outStep : (Bool × String) → Ev → (Bool × String)
  | (ab, out), Ev.write d => (ab, if ab then out else out ++ d)
  | (_, out), Ev.abort => (true, out)

/-- A whole parse run as a fold over its output events, starting not
aborted with an empty output. -/
def runTrace (evs : List Ev) : Bool × String :=
  evs.foldl outStep (false, "")

/-- Lines opi.py:463-473: after the stream is consumed, when `_aborted`
is set and the destination is a real file (not stdout) the output file is
reopened with mode "w" and closed, leaving it zero bytes long; on stdout
the output is merely left truncated wherever writing stopped. -/
def finalOutput (isFile : Bool) (evs : List Ev) : String :=
  let r := runTrace evs
  if r.1 && isFile then "" else r.2

/-- The aborted flag is never cleared by later events. -/
theorem foldl_outStep_aborted (evs : List Ev) :
    ∀ p : Bool × String, p.1 = true → (evs.foldl outStep p).1 = true := by
  induction evs with
  | nil => intro p h; exact h
  | cons e t ih =>
    intro p h
    obtain ⟨ab, out⟩ := p
    cases e with
    | write d => exact ih _ h
    | abort => exact ih _ rfl

/-- Any trace containing an abort ends with the aborted flag set. -/
theorem abort_mem_foldl (evs : List Ev) :
    ∀ p : Bool × String, Ev.abort ∈ evs → (evs.foldl outStep p).1 = true := by
  induction evs with
  | nil => intro p h; cases h
  | cons e t ih =>
    intro p h
    obtain ⟨ab, out⟩ := p
    cases e with
    | write d =>
      have ht : Ev.abort ∈ t := by
        cases h with
        | tail _ hm => exact hm
      exact ih _ ht
    | abort => exact foldl_outStep_aborted t _ rfl

/-- C6: if at least one abort fired during processing and the output
destination is a real file, the run ends aborted and the final output
file is zero bytes long (opi.py:466-473). -/
theorem C6_abort_truncates (evs : List Ev) (h : Ev.abort ∈ evs) :
    (runTrace evs).1 = true ∧ finalOutput true evs = "" := by
  have hflag : (runTrace evs).1 = true := abort_mem_foldl evs (false, "") h
  refine ⟨hflag, ?_⟩
  simp [finalOutput, hflag]

/-- Witness for C6: a run that writes, aborts mid-stream, then sees
another write request ends with an empty real-file output. -/
theorem C6_abort_truncates_witness :
    Ev.abort ∈ [Ev.write "a", Ev.abort, Ev.write "b"] ∧
    (runTrace [Ev.write "a", Ev.abort, Ev.write "b"]).1 = true ∧
    finalOutput true [Ev.write "a", Ev.abort, Ev.write "b"] = "" :=
  ⟨by decide, C6_abort_truncates [Ev.write "a", Ev.abort, Ev.write "b"] (by decide)⟩

/-! ### C9: CMYK gray detection and CMY stripping -/

/-- A raster image for the detector: mode string plus row-major pixels,
each pixel a CMYK quadruple. -/
structure DImage where
  mode : String
  w : ℕ
  h : ℕ
  rows : List (List (ℕ × ℕ × ℕ × ℕ))
deriving DecidableEq

/-- `getpixel((x, y))`; pixels outside the stored rows read as
(0, 0, 0, 0). -/
def getpixel (img : DImage) (x y : ℕ) : ℕ × ℕ × ℕ × ℕ :=
  (img.rows.getD y []).getD x (0, 0, 0, 0)

/-- The chained sample test `t[0] == t[1] == t[2] == 0`
(opi.py:1119 etc.): C, M and Y of the pixel are all zero. -/
def cmyZero (p : ℕ × ℕ × ℕ × ℕ) : Bool :=
  p.1 == 0 && p.2.1 == 0 && p.2.2.1 == 0

/-- The full channel comparison (opi.py:1131-1143): the C, M and Y
channels each equal an all-zero channel of the same size, i.e. every
pixel has C = M = Y = 0. -/
def channelsCMYZero (img : DImage) : Bool :=
  img.rows.all (fun r => r.all cmyZero)

/-- The detector-relevant configuration flags; the two profile Booleans
stand for `ICCProfiles["out"].fileName` and
`ICCProfiles["out_gray"].fileName` being nonempty. -/
structure DetectCfg where
  detectcmykgrayimages : Bool
  convertcmykimages : Bool
  convertgrayimages : Bool
  cmykgrayimages_stripcmy : Bool
  outProfileSet : Bool
  outGrayProfileSet : Bool
deriving DecidableEq

/-- The guard at opi.py:1095-1100: CMYK mode, detection enabled, and an
output transform otherwise applicable or stripping requested. -/
def detectApplicable (cfg : DetectCfg) (img : DImage) : Bool :=
  img.mode == "CMYK" && cfg.detectcmykgrayimages &&
    (((cfg.convertcmykimages || cfg.convertgrayimages) && cfg.outProfileSet) ||
     (cfg.convertgrayimages && cfg.outGrayProfileSet) ||
     cfg.cmykgrayimages_stripcmy)

/-- The strip guard at opi.py:1147-1150: strip only when no gray
conversion would consume the image (`convertgrayimages` unset, or
neither output profile set) and stripping is requested. -/
def stripCond (cfg : DetectCfg) : Bool :=
  (!cfg.convertgrayimages ||
    !(cfg.outGrayProfileSet || cfg.outProfileSet)) &&
  cfg.cmykgrayimages_stripcmy

/-- `ImageChops.invert(Image.merge("L", [channels[3]]))`
(opi.py:1155): the K channel inverted, as a single-channel image. -/
def invertedK (img : DImage) : List (List ℕ) :=
  img.rows.map (fun r => r.map (fun p => 255 - p.2.2.2))

/-- Detector outcome: the `_iscmykgrayimage` flag and the stripped
replacement image, if any. -/
structure DetectResult where
  iscmykgrayimage : Bool
  stripped : Option (List (List ℕ))
deriving DecidableEq

/-- Lines opi.py:1094-1157: the five nested sample tests at
(w/4, h/4), ((w/4)*3, h/4), (w/2, h/2), (w/4, (h/4)*3) and
((w/4)*3, (h/4)*3) (integer division), then the full channel
comparison; on success `_iscmykgrayimage` is set and, under the strip
guard, the image is replaced by its inverted K channel. -/
def detectcmykgrayimages (cfg : DetectCfg) (img : DImage) : DetectResult :=
  if detectApplicable cfg img then
    if cmyZero (getpixel img (img.w / 4) (img.h / 4)) then
      if cmyZero (getpixel img ((img.w / 4) * 3) (img.h / 4)) then
        if cmyZero (getpixel img (img.w / 2) (img.h / 2)) then
          if cmyZero (getpixel img (img.w / 4) ((img.h / 4) * 3)) then
            if cmyZero (getpixel img ((img.w / 4) * 3) ((img.h / 4) * 3)) then
              if channelsCMYZero img then
                { iscmykgrayimage := true,
                  stripped :=
                    if stripCond cfg then some (invertedK img) else none }
              else { iscmykgrayimage := false, stripped := none }
            else { iscmykgrayimage := false, stripped := none }
          else { iscmykgrayimage := false, stripped := none }
        else { iscmykgrayimage := false, stripped := none }
      else { iscmykgrayimage := false, stripped := none }
    else { iscmykgrayimage := false, stripped := none }
  else { iscmykgrayimage := false, stripped := none }

/-- An image with all CMY channels zero has every sampled pixel CMY
zero, including out-of-range reads. -/
theorem cmyZero_getpixel_of_channels (img : DImage)
    (h : channelsCMYZero img = true) (x y : ℕ) :
    cmyZero (getpixel img x y) = true := by
  unfold getpixel
  rcases lt_or_ge y img.rows.length with hy | hy
  · rw [List.getD_eq_getElem _ _ hy]
    have hall : (img.rows[y]).all cmyZero = true :=
      List.all_eq_true.mp h _ (List.getElem_mem hy)
    rcases lt_or_ge x (img.rows[y]).length with hx | hx
    · rw [List.getD_eq_getElem _ _ hx]
      exact List.all_eq_true.mp hall _ (List.getElem_mem hx)
    · rw [List.getD_eq_default _ _ hx]
      rfl
  · rw [List.getD_eq_default _ _ hy]
    rfl

/-- Configuration for the counterexample: stripping requested, but gray
conversion enabled with an output gray profile set. -/
def c9cfg : DetectCfg :=
  { detectcmykgrayimages := true, convertcmykimages := false,
    convertgrayimages := true, cmykgrayimages_stripcmy := true,
    outProfileSet := false, outGrayProfileSet := true }

/-- A 2×2 pure-K CMYK image. -/
def c9img : DImage :=
  { mode := "CMYK", w := 2, h := 2,
    rows := [[(0, 0, 0, 5), (0, 0, 0, 5)], [(0, 0, 0, 5), (0, 0, 0, 5)]] }

/-- Counterexample for C9: with CMY stripping configured but
`convertgrayimages` set alongside an output gray profile, a detected
CMYK gray is NOT stripped — the strip guard at opi.py:1147-1150 also
requires that no gray conversion would fire. -/
theorem C9_counterexample :
    detectApplicable c9cfg c9img = true ∧
    c9cfg.cmykgrayimages_stripcmy = true ∧
    (detectcmykgrayimages c9cfg c9img).iscmykgrayimage = true ∧
    (detectcmykgrayimages c9cfg c9img).stripped = none := by
  decide

/-- C9 (amended): when the detector applies, the image is classified a
CMYK gray exactly when its full C, M and Y channels are zero (the five
samples at (w/4, h/4), ((w/4)*3, h/4), (w/2, h/2), (w/4, (h/4)*3),
((w/4)*3, (h/4)*3) are then automatically zero, being pixels of the
image), and the image is replaced by its inverted K channel as a
single-channel gray exactly when it is classified gray AND the strip
guard holds — stripping requested and no gray conversion applicable —
not merely whenever stripping is configured. -/
theorem C9_cmyk_gray_detection (cfg : DetectCfg) (img : DImage)
    (happ : detectApplicable cfg img = true) :
    ((detectcmykgrayimages cfg img).iscmykgrayimage = true ↔
      channelsCMYZero img = true) ∧
    ((detectcmykgrayimages cfg img).stripped =
      if (detectcmykgrayimages cfg img).iscmykgrayimage && stripCond cfg
      then some (invertedK img) else none) := by
  by_cases hch : channelsCMYZero img = true
  · have h1 := cmyZero_getpixel_of_channels img hch (img.w / 4) (img.h / 4)
    have h2 := cmyZero_getpixel_of_channels img hch ((img.w / 4) * 3) (img.h / 4)
    have h3 := cmyZero_getpixel_of_channels img hch (img.w / 2) (img.h / 2)
    have h4 := cmyZero_getpixel_of_channels img hch (img.w / 4) ((img.h / 4) * 3)
    have h5 := cmyZero_getpixel_of_channels img hch ((img.w / 4) * 3) ((img.h / 4) * 3)
    simp [detectcmykgrayimages, happ, h1, h2, h3, h4, h5, hch]
  · simp only [detectcmykgrayimages, happ, if_true]
    repeat' split
    all_goals simp_all

/-- Witness for C9 (amended): a pure-K image under a strip-only
configuration. -/
def c9wcfg : DetectCfg :=
  { detectcmykgrayimages := true, convertcmykimages := false,
    convertgrayimages := false, cmykgrayimages_stripcmy := true,
    outProfileSet := false, outGrayProfileSet := false }

/-- Witness for C9 (amended): the characterization applied to `c9img`
under `c9wcfg`. -/
theorem C9_cmyk_gray_detection_witness :
    detectApplicable c9wcfg c9img = true ∧
    (((detectcmykgrayimages c9wcfg c9img).iscmykgrayimage = true ↔
       channelsCMYZero c9img = true) ∧
     ((detectcmykgrayimages c9wcfg c9img).stripped =
       if (detectcmykgrayimages c9wcfg c9img).iscmykgrayimage && stripCond c9wcfg
       then some (invertedK c9img) else none)) :=
  ⟨by decide, C9_cmyk_gray_detection c9wcfg c9img (by decide)⟩

/-! ### C10: EPSImage construction from unrecognised contents -/

/-- The DOS EPS binary header \xC5\xD0\xD3\xC6 (opi.py:2920). -/
def dosSig : List ℕ := [0xC5, 0xD0, 0xD3, 0xC6]

/-- The ASCII EPS signature "%!" (opi.py:2924). -/
def asciiSig : List ℕ := [0x25, 0x21]

/-- `int(binascii.hexlify(bs[::-1]), 16)`: the little-endian value of a
byte slice. -/
def leVal (bs : List ℕ) : ℕ :=
  bs.foldr (fun b a => a * 256 + b) 0

/-- Python bytes whitespace for `split()`. -/
def isWS (b : ℕ) : Bool :=
  b == 32 || b == 9 || b == 10 || b == 13 || b == 11 || b == 12

/-- Helper for `split()`: foldr collecting the current token and the
finished tokens. -/
def splitWSAux (l : List ℕ) : List ℕ × List (List ℕ) :=
  l.foldr
    (fun b acc =>
      if isWS b then
        if acc.1.isEmpty then ([], acc.2) else ([], acc.1 :: acc.2)
      else (b :: acc.1, acc.2))
    ([], [])

/-- `split()` with no argument: split on whitespace runs, no empty
tokens. -/
def splitWS (l : List ℕ) : List (List ℕ) :=
  let r := splitWSAux l
  if r.1.isEmpty then r.2 else r.1 :: r.2

/-- Value of a list of ASCII digits. -/
def digitsVal (ds : List ℕ) : ℕ :=
  ds.foldl (fun a d => a * 10 + (d - 48)) 0

/-- All bytes are ASCII digits. -/
def allDigits (ds : List ℕ) : Bool :=
  ds.all (fun d => 48 ≤ d && d ≤ 57)

/-- `float(token)` for the plain decimal literals that appear in
`%%BoundingBox` comments: optional sign, integer part, optional
fractional part; anything else is rejected (and `floatlist` drops
it). -/
def parseFloat (tok : List ℕ) : Option ℚ :=
  let sr : ℚ × List ℕ :=
    match tok with
    | 45 :: t => (-1, t)
    | 43 :: t => (1, t)
    | t => (1, t)
  match sr.2.splitOn 46 with
  | [ip] =>
    if ip.isEmpty || !allDigits ip then none
    else some (sr.1 * digitsVal ip)
  | [ip, fp] =>
    if (ip.isEmpty && fp.isEmpty) || !allDigits ip || !allDigits fp then none
    else some (sr.1 * ((digitsVal ip : ℚ) + (digitsVal fp : ℚ) / (10 : ℚ) ^ fp.length))
  | _ => none

/-- `floatlist` (opi.py:2957-2963): parse each token, silently skipping
failures. -/
def floatlist (l : List (List ℕ)) : List ℚ :=
  l.filterMap parseFloat

/-- `data.find(pat)`: lowest index where `pat` occurs, as an Option. -/
def findSub (pat l : List ℕ) : Option ℕ :=
  (List.range (l.length + 1)).find? (fun i => pat.isPrefixOf (l.drop i))

/-- "%%HiResBoundingBox" as bytes. -/
def hiResTag : List ℕ := "%%HiResBoundingBox".toList.map Char.toNat

/-- "%%BoundingBox" as bytes. -/
def bbTag : List ℕ := "%%BoundingBox".toList.map Char.toNat

/-- The constructed EPSImage: payload, recorded bounding box, and the
`size` attribute (`none` when the attribute was never assigned,
opi.py:2933-2942). -/
structure EPSImage where
  data : List ℕ
  boundingbox : Option (List ℚ)
  size : Option (ℚ × ℚ)
deriving DecidableEq

/-- Lines opi.py:2933-2942: with a nonempty payload, search for
"%%HiResBoundingBox" then "%%BoundingBox"; when found, split the next
128 bytes, parse tokens 1-4 as floats, and set
`size = (bbox[2] - bbox[0], bbox[3] - bbox[1])` — fewer than four
parsed floats makes the indexing raise (`none`); when not found, `size`
is never assigned.  An empty payload sets `size = (0, 0)`. -/
def EPSImage_finish (payload : List ℕ) : Option EPSImage :=
  if payload.isEmpty then
    some { data := payload, boundingbox := none, size := some (0, 0) }
  else
    match (findSub hiResTag payload).or (findSub bbTag payload) with
    | some i =>
      match floatlist (((splitWS ((payload.drop i).take 128)).drop 1).take 4) with
      | [b0, b1, b2, b3] =>
        some { data := payload, boundingbox := some [b0, b1, b2, b3],
               size := some (b2 - b0, b3 - b1) }
      | _ => none
    | none => some { data := payload, boundingbox := none, size := none }

/-- Lines opi.py:2917-2942, `EPSImage.__init__` on the file contents: a
DOS EPS header reads two little-endian offsets from bytes 4-11 (an
empty offset slice makes `int(binascii.hexlify(...), 16)` raise) and
slices the payload; an ASCII "%!" file is its own payload; anything
else has an empty payload. -/
def EPSImage_init (contents : List ℕ) : Option EPSImage :=
  if contents.take 4 = dosSig then
    let beginBytes := (contents.drop 4).take 4
    let lenBytes := (contents.drop 8).take 4
    if beginBytes.isEmpty || lenBytes.isEmpty then none
    else EPSImage_finish ((contents.drop (leVal beginBytes)).take (leVal lenBytes))
  else if contents.take 2 = asciiSig then
    EPSImage_finish contents
  else
    EPSImage_finish []

/-- C10: contents starting with neither the DOS EPS binary signature nor
"%!" always construct successfully, with an empty payload, no bounding
box, and size (0, 0). -/
theorem C10_no_signature_empty (contents : List ℕ)
    (h1 : contents.take 4 ≠ dosSig) (h2 : contents.take 2 ≠ asciiSig) :
    EPSImage_init contents =
      some { data := [], boundingbox := none, size := some (0, 0) } := by
  unfold EPSImage_init
  rw [if_neg h1, if_neg h2]
  rfl

/-- Witness for C10: three arbitrary bytes match neither signature and
give the empty EPSImage. -/
theorem C10_no_signature_empty_witness :
    ([1, 2, 3] : List ℕ).take 4 ≠ dosSig ∧
    ([1, 2, 3] : List ℕ).take 2 ≠ asciiSig ∧
    EPSImage_init [1, 2, 3] =
      some { data := [], boundingbox := none, size := some (0, 0) } :=
  ⟨by decide, by decide,
    C10_no_signature_empty [1, 2, 3] (by decide) (by decide)⟩

end Opi
